import Mathlib

/-!
# Scale arithmetic and scalebar layout of MapServer (mapscale.c)

A shallow embedding of the numeric core of `mapscale.c`.

Conventions of the embedding.

* A C `double` is an exact number of a linearly ordered field `K` with a floor
  function.  The definitions are computable and can be evaluated at `K = ℚ`;
  statements that involve the C math library (`cos`, `sqrt`, `log10`) are made
  at `K = ℝ`.  Rounding error and the infinities are not represented: a
  division by zero yields `0` here, so every statement whose value depends on
  a divisor says that the divisor is not zero.  A NaN is represented only
  where the layout loop produces one (the interval of a pass with a negative
  argument, `none`).  Where a statement depends on rounding, the functions
  are given a second time on doubles (section "Double precision").
* A C `int` is an `Int`.  Signed overflow is undefined behaviour in C; the
  embedding describes the executions without overflow.
* An output parameter (`double *scale`) is threaded through explicitly: the
  function takes the old contents and returns the new contents next to the
  status.
* `msSetError` only records a message in the error stack and is left out.
-/

namespace MapScale

/-! ## Declarations taken over from mapserver.h -/

/-- Modelled from the spec: the status code of a successful call (the macro
`MS_SUCCESS` of mapserver.h, which is not part of this source file). -/
def MS_SUCCESS : Int := 0

/-- Modelled from the spec: the status code of a failed call (the macro
`MS_FAILURE` of mapserver.h, which is not part of this source file). -/
def MS_FAILURE : Int := 1

/-- Modelled from the spec: the unit enumeration `MS_UNITS` of mapserver.h.
The values follow the order of the tables `unitText` and `inchesPerUnit`
(inches, feet, miles, meters, kilometers, decimal degrees, two placeholders,
nautical miles), which the source asks to keep matched to the enumeration. -/
def MS_INCHES : Int := 0

/-- Modelled from the spec: feet, entry 1 of the unit tables. -/
def MS_FEET : Int := 1

/-- Modelled from the spec: miles, entry 2 of the unit tables. -/
def MS_MILES : Int := 2

/-- Modelled from the spec: meters, entry 3 of the unit tables. -/
def MS_METERS : Int := 3

/-- Modelled from the spec: kilometers, entry 4 of the unit tables. -/
def MS_KILOMETERS : Int := 4

/-- Modelled from the spec: decimal degrees, entry 5 of the unit tables. -/
def MS_DD : Int := 5

/-- Modelled from the spec: pixels, the first placeholder entry (6). -/
def MS_PIXELS : Int := 6

/-- Modelled from the spec: percentages, the second placeholder entry (7). -/
def MS_PERCENTAGES : Int := 7

/-- Modelled from the spec: nautical miles, entry 8 of the unit tables. -/
def MS_NAUTICALMILES : Int := 8

/-- The rectangle type `rectObj`: an extent in map units. -/
structure rectObj (K : Type) where
  minx : K
  miny : K
  maxx : K
  maxy : K

/-- Modelled from the spec: the macro `MS_VALID_EXTENT` of mapserver.h (not part
of this source file): max strictly greater than min on both axes. -/
def MS_VALID_EXTENT {K : Type} [LinearOrderedField K] (rect : rectObj K) : Bool :=
  decide (rect.minx < rect.maxx) && decide (rect.miny < rect.maxy)

/-- Modelled from the spec: the macro `MS_NINT` of mapserver.h (not part of this
source file), rounding to the nearest integer, a half away from zero:
`x >= 0 ? (long)(x + .5) : (long)(x - .5)`. -/
def MS_NINT {K : Type} [LinearOrderedField K] [FloorRing K] (x : K) : Int :=
  if 0 ≤ x then ⌊x + 1 / 2⌋ else ⌈x - 1 / 2⌉

/-- What the build supplies from outside this file: whether the preprocessor
symbol `ENABLE_VARIABLE_INCHES_PER_DEGREE` is defined, the functions `cos` and
`sqrt` of the C math library, the constant `MS_PI`, the number of characters
that `snprintf` with the format `%g` writes for a NaN, and the `int` that the
conversion of a NaN to `long` and on to `int` leaves (C does not say which). -/
structure Build (K : Type) where
  ENABLE_VARIABLE_INCHES_PER_DEGREE : Bool
  cos : K → K
  sqrt : K → K
  MS_PI : K
  nanLabelLen : Nat
  nanToInt : Int

/-- A build over the rationals without the latitude adjustment; `cos` and
`sqrt` are never called in such a build, so placeholders stand for them.  A
NaN is printed as "nan" and converted to 0, as gcc and glibc do on x86-64. -/
def plainBuild : Build ℚ :=
  ⟨false, fun _ => 1, fun x => x, 355 / 113, 3, 0⟩

/-- The idealised build over the reals: the real cosine and square root, and
`MS_PI` taken as the number pi; a NaN is printed as "nan" and converted to 0. -/
noncomputable def realBuild (enable : Bool) : Build ℝ :=
  ⟨enable, Real.cos, Real.sqrt, Real.pi, 3, 0⟩

/-! ## Unit tables (lines 42-43) -/

/-- The table `unitText`. -/
def unitText : List String := ["in", "ft", "mi", "m", "km", "dd", "??", "??", "NM"]

/-- The table `inchesPerUnit`. -/
def inchesPerUnit (K : Type) [Field K] : List K :=
  [1, 12, 63360, 393701 / 10000, 393701 / 10, 4374754, 1, 1, 729133858 / 10000]

/-- The labels of the first `switch` of `msCalculateScale` and of
`GetDeltaExtentsUsingScale`: the seven supported units. -/
def supportedUnit (units : Int) : Bool :=
  units == MS_DD || units == MS_METERS || units == MS_KILOMETERS || units == MS_MILES
    || units == MS_NAUTICALMILES || units == MS_INCHES || units == MS_FEET

/-- The labels of the first case group of `msInchesPerUnit`: the linear units. -/
def linearUnit (units : Int) : Bool :=
  units == MS_METERS || units == MS_KILOMETERS || units == MS_MILES
    || units == MS_NAUTICALMILES || units == MS_INCHES || units == MS_FEET

/-! ## msInchesPerUnit (lines 127-159) -/

/-- The value of the local `lat_adj` when the `MS_DD` case is left. -/
def lat_adj {K : Type} [LinearOrderedField K] (B : Build K) (center_lat : K) : K :=
  if B.ENABLE_VARIABLE_INCHES_PER_DEGREE && decide (center_lat ≠ 0) then
    let cos_lat := B.cos (B.MS_PI * center_lat / 180)
    B.sqrt (1 + cos_lat * cos_lat) / B.sqrt 2
  else 1

/-- The function `msInchesPerUnit`. -/
def msInchesPerUnit {K : Type} [LinearOrderedField K] (B : Build K) (units : Int)
    (center_lat : K) : K :=
  if linearUnit units then
    (inchesPerUnit K).getD units.toNat 1
  else if units == MS_DD then
    (inchesPerUnit K).getD MS_DD.toNat 1 * lat_adj B center_lat
  else
    1

/-! ## msCalculateScale (lines 91-125) -/

/-- The function `msCalculateScale`.  The last argument is the contents of
`*scale` before the call; the result is the returned status and the contents
of `*scale` after the call. -/
def msCalculateScale {K : Type} [LinearOrderedField K] (B : Build K) (extent : rectObj K)
    (units width height pixeladjustment : Int) (resolution : K) (scale : K) : Int × K :=
  if !MS_VALID_EXTENT extent then
    (MS_FAILURE, scale)
  else if decide (width ≤ 0) || decide (height ≤ 0) then
    (MS_FAILURE, scale)
  else if supportedUnit units then
    let center_y := (extent.miny + extent.maxy) / 2
    let md := ((width - pixeladjustment : Int) : K) / (resolution * msInchesPerUnit B units center_y)
    let gd := extent.maxx - extent.minx
    (MS_SUCCESS, gd / md)
  else
    (MS_SUCCESS, -1)

/-! ## roundInterval2 (lines 73-85) -/

/-- The local `magnitude` of `roundInterval2` for `d > 0`: `floor(log10(d))`,
the greatest integer `m` with `10 ^ m ≤ d` (see `magnitude_eq_floor_log10`).
For `d ≤ 0` the C library yields minus infinity or a NaN, which this
definition does not represent; `roundInterval2` does not use it there. -/
def magnitude {K : Type} [LinearOrderedField K] [FloorRing K] (d : K) : Int :=
  Int.log 10 d

/-- The local `ratio` of `roundInterval2` after line 78, for `d > 0`. -/
def ratio {K : Type} [LinearOrderedField K] [FloorRing K] (d : K) : K :=
  d / (10 : K) ^ magnitude d

/-- The snapping of `ratio` on lines 79-82. -/
def snapRatio {K : Type} [LinearOrderedField K] (r : K) : K :=
  if r < 3 / 2 then 1
  else if r < 4 then 2
  else if r < 8 then 5
  else 10

/-- The function `roundInterval2`.  For `d = 0` the C computes
`floor(log10(0))`, minus infinity, and `pow(10, magnitude)`, zero; the ratio
0/0 is a NaN, every comparison with it fails, `ratio` becomes 10 and the
result is 10 * 0 = 0.  For `d < 0` the logarithm and with it the result is a
NaN, which a number cannot represent: 0 stands in, and the one caller,
`loopBody`, tests for `d < 0` before it calls. -/
def roundInterval2 {K : Type} [LinearOrderedField K] [FloorRing K] (d : K) : K :=
  if 0 < d then snapRatio (ratio d) * (10 : K) ^ magnitude d else 0

/-! ## roundInterval (lines 45-71) -/

/-- The function `roundInterval`. -/
def roundInterval {K : Type} [LinearOrderedField K] [FloorRing K] (d : K) : K :=
  if d < 1 / 1000 then (MS_NINT (d * 10000) : K) / 10000
  else if d < 1 / 100 then (MS_NINT (d * 1000) : K) / 1000
  else if d < 1 / 10 then (MS_NINT (d * 100) : K) / 100
  else if d < 1 then (MS_NINT (d * 10) : K) / 10
  else if d < 100 then (MS_NINT d : K)
  else if d < 1000 then ((MS_NINT (d / 10) * 10 : Int) : K)
  else if d < 10000 then ((MS_NINT (d / 100) * 100 : Int) : K)
  else if d < 100000 then ((MS_NINT (d / 1000) * 1000 : Int) : K)
  else if d < 1000000 then ((MS_NINT (d / 10000) * 10000 : Int) : K)
  else if d < 10000000 then ((MS_NINT (d / 100000) * 100000 : Int) : K)
  else if d < 100000000 then ((MS_NINT (d / 1000000) * 1000000 : Int) : K)
  else -1

/-- The granularity `g` of the breakpoint ladder as the specification lists it
(0.0001 below 0.001, 0.001 below 0.01, and so on up to 1e6 below 1e8), to be
compared with what `roundInterval` computes. -/
def granularity {K : Type} [LinearOrderedField K] (d : K) : K :=
  if d < 1 / 1000 then 1 / 10000
  else if d < 1 / 100 then 1 / 1000
  else if d < 1 / 10 then 1 / 100
  else if d < 1 then 1 / 10
  else if d < 100 then 1
  else if d < 1000 then 10
  else if d < 10000 then 100
  else if d < 100000 then 1000
  else if d < 1000000 then 10000
  else if d < 10000000 then 100000
  else 1000000

/-! ## The layout loop of msDrawScalebar (lines 160-247) -/

/-- The macro `X_STEP_SIZE`. -/
def X_STEP_SIZE : Int := 5

/-- The unit adjustment of the loop body (lines 225-232): the new values of the
locals `units` and `i`. -/
def adjustUnits {K : Type} [LinearOrderedField K] (units : Int) (i : K) : Int × K :=
  if units == MS_METERS && decide (1000 ≤ i) then (MS_KILOMETERS, i / 1000)
  else if units == MS_KILOMETERS && decide (i ≤ 1 / 1000) then (MS_METERS, i * 1000)
  else (units, i)

/-- What the loop reads and does not change: `map->cellsize`, `map->units`,
`map->scalebar.intervals`, the locals `fontWidth`, `scalebarWidth` and
`hMargin`, and the number of characters that `snprintf` with the format `%g`
writes for a number (the C library's formatting is not part of this file). -/
structure Layout (K : Type) where
  cellsize : K
  mapUnits : Int
  intervals : Int
  fontWidth : K
  scalebarWidth : Int
  hMargin : Int
  labelLen : K → Nat

/-- The locals that one pass through the loop body sets; the interval `i` is
`none` when it is a NaN. -/
structure LoopVars (K : Type) where
  units : Int
  i : Option K
  isx : Int
  sx : Int

/-- The segment width `isx` of line 234 for an interval `i` in the unit `units`. -/
def segmentWidth {K : Type} [LinearOrderedField K] [FloorRing K] (B : Build K) (L : Layout K)
    (units : Int) (i : K) : Int :=
  MS_NINT ((i / (msInchesPerUnit B L.mapUnits 0 / msInchesPerUnit B units 0)) / L.cellsize)

/-- One pass through the loop body up to the test (lines 223-235), entered with
the locals `units` and `dsx`.  When the argument of `roundInterval2` is
negative (a pass with `dsx < 0` on a map with positive cell size), the interval
is a NaN: both comparisons of the unit adjustment fail, the label is the text
of a NaN, and `isx` is what the conversion of a NaN leaves. -/
def loopBody {K : Type} [LinearOrderedField K] [FloorRing K] (B : Build K) (L : Layout K)
    (units dsx : Int) : LoopVars K :=
  let msx := (L.cellsize * (dsx : K)) / (msInchesPerUnit B units 0 / msInchesPerUnit B L.mapUnits 0)
  if msx / (L.intervals : K) < 0 then
    let isx := B.nanToInt
    let sx := L.intervals * isx
      + MS_NINT ((3 / 2 + (B.nanLabelLen : K) / 2 + ((unitText.getD units.toNat "").length : K))
          * L.fontWidth)
    ⟨units, none, isx, sx⟩
  else
    let a := adjustUnits units (roundInterval2 (msx / (L.intervals : K)))
    let isx := segmentWidth B L a.1 a.2
    let len := L.labelLen ((L.intervals : K) * a.2)
    let sx := L.intervals * isx
      + MS_NINT ((3 / 2 + (len : K) / 2 + ((unitText.getD a.1.toNat "").length : K)) * L.fontWidth)
    ⟨a.1, some a.2, isx, sx⟩

/-- The test of line 237: the content fits. -/
def fits {K : Type} (L : Layout K) (v : LoopVars K) : Bool :=
  decide (v.sx ≤ L.scalebarWidth - 2 * L.hMargin)

/-- The locals `units` and `dsx` at the start of pass `n` (counted from 0) of
a loop that was entered with `units` and `dsx` and has not been left before. -/
def loopStart {K : Type} [LinearOrderedField K] [FloorRing K] (B : Build K) (L : Layout K)
    (units dsx : Int) : Nat → Int × Int
  | 0 => (units, dsx)
  | n + 1 =>
    let s := loopStart B L units dsx n
    ((loopBody B L s.1 s.2).units, s.2 - X_STEP_SIZE)

/-- The loop `do ... while(1)` of lines 222-240, run for at most `fuel` passes
from the locals `units` and `dsx`: the values of the pass that took the
`break`, or `none` when no pass among the first `fuel` took it. -/
def layoutLoop {K : Type} [LinearOrderedField K] [FloorRing K] (B : Build K) (L : Layout K) :
    Nat → Int → Int → Option (LoopVars K)
  | 0, _, _ => none
  | fuel + 1, units, dsx =>
    let v := loopBody B L units dsx
    if fits L v then some v
    else layoutLoop B L fuel v.units (dsx - X_STEP_SIZE)

/-- The values that pass `n` (counted from 0) of the loop computes, when the
loop was entered with `units` and `dsx` and has not been left before. -/
def passVars {K : Type} [LinearOrderedField K] [FloorRing K] (B : Build K) (L : Layout K)
    (units dsx : Int) (n : Nat) : LoopVars K :=
  loopBody B L (loopStart B L units dsx n).1 (loopStart B L units dsx n).2

/-- The argument `scalebarWidth` of `msImageCreate` (lines 244-247): the
content width plus the margins for an embedded scalebar, the scaled configured
width otherwise. -/
def imageWidth {K : Type} (L : Layout K) (embed : Bool) (v : LoopVars K) : Int :=
  if embed then v.sx + 2 * L.hMargin else L.scalebarWidth

/-! ## Pix2Georef (lines 589-615) -/

/-- The function `Pix2Georef`. -/
def Pix2Georef {K : Type} [LinearOrderedField K] (nPixPos nPixMin nPixMax : Int)
    (dfGeoMin dfGeoMax : K) (bULisYOrig : Int) : K :=
  let dfWidthGeo := dfGeoMax - dfGeoMin
  let nWidthPix := nPixMax - nPixMin
  if 0 < dfWidthGeo ∧ 0 < nWidthPix then
    let dfPixToGeo := dfWidthGeo / (nWidthPix : K)
    let nDeltaPix := if bULisYOrig = 0 then nPixPos - nPixMin else nPixMax - nPixPos
    dfGeoMin + (nDeltaPix : K) * dfPixToGeo
  else 0

/-! ## msDrawScalebar: the return paths (lines 163-370) -/

/-- The fields of `rendererVTableObj` that `msDrawScalebar` tests. -/
structure rendererVTableObj where
  supports_pixel_buffer : Int
  supports_svg : Int

/-- How a function with a loop ends when the loop is run for a bounded number
of passes: it is still in the loop, or it has returned a value. -/
inductive Outcome (α : Type) where
  | running : Outcome α
  | returned : α → Outcome α

/-- What a call of `msDrawScalebar` reads: fields of the map, the locals that
are computed before the loop, and the results of the calls into other files
(`msGetLabelSize`, `msAdjustExtent`, `msImageCreate`, the drawing calls).
`renderer` is `none` for a null pointer; `extent` and `cellsize` are the
extent and the cell size that `msAdjustExtent` leaves; `sy` is the image
height of line 242; `draw` stands for the drawing of the styles 0 and 1. -/
structure ScalebarCall (K Image : Type) where
  units : Int
  renderer : Option rendererVTableObj
  labelSizeStatus : Int
  extent : rectObj K
  width : Int
  height : Int
  pixeladjustment : Int
  resolution : K
  scaledenom : K
  cellsize : K
  intervals : Int
  fontWidth : K
  scalebarWidth : Int
  hMargin : Int
  labelLen : K → Nat
  scalebarUnits : Int
  embed : Bool
  sy : Int
  msImageCreate : Int → Int → Option Image
  style : Int
  draw : Image → LoopVars K → Image

/-- The values that the loop of a call reads. -/
def ScalebarCall.layout {K Image : Type} (c : ScalebarCall K Image) : Layout K :=
  ⟨c.cellsize, c.units, c.intervals, c.fontWidth, c.scalebarWidth, c.hMargin, c.labelLen⟩

/-- The function `msDrawScalebar`, its loop run for at most `fuel` passes: the
returned image, `none` for `NULL`. -/
def msDrawScalebar {K Image : Type} [LinearOrderedField K] [FloorRing K] (B : Build K)
    (c : ScalebarCall K Image) (fuel : Nat) : Outcome (Option Image) :=
  if c.units = -1 then Outcome.returned none
  else match c.renderer with
    | none => Outcome.returned none
    | some r =>
      if r.supports_pixel_buffer = 0 ∧ r.supports_svg = 0 then Outcome.returned none
      else if c.labelSizeStatus ≠ MS_SUCCESS then Outcome.returned none
      else if (msCalculateScale B c.extent c.units c.width c.height c.pixeladjustment
          c.resolution c.scaledenom).1 ≠ MS_SUCCESS then Outcome.returned none
      else match layoutLoop B c.layout fuel c.scalebarUnits (c.scalebarWidth - 2 * c.hMargin) with
        | none => Outcome.running
        | some v =>
          match c.msImageCreate (imageWidth c.layout c.embed v) c.sy with
          | none => Outcome.returned none
          | some image =>
            if c.style = 0 ∨ c.style = 1 then Outcome.returned (some (c.draw image v))
            else Outcome.returned none

/-! ## msEmbedScalebar: symbol set and output format (lines 372-535) -/

/-- Modelled from the spec: the lookup by name of the symbol registry
(`msGetSymbolIndex` of mapsymbol.c, not part of this source file), on the list
of the symbols' names (`none` for a symbol without a name): the index of the
first symbol with the given name, -1 when there is none. -/
def msGetSymbolIndex (symbols : List (Option String)) (name : String) : Int :=
  if List.indexOf (some name) symbols < symbols.length then
    (List.indexOf (some name) symbols : Int)
  else -1

/-- Modelled from the spec: the eviction of the symbol registry
(`msRemoveSymbol` of mapsymbol.c, not part of this source file): the symbol
at the given index is taken out of the set. -/
def msRemoveSymbol (symbols : List (Option String)) (index : Int) : List (Option String) :=
  symbols.eraseIdx index.toNat

/-- What `msEmbedScalebar` reads and writes of the map: the names of the
symbols of `map->symbolset`, `map->outputformat` and `map->imagetype`. -/
structure EmbedMap (Format : Type) where
  symbols : List (Option String)
  outputformat : Format
  imagetype : String

/-- What a call of `msEmbedScalebar` gets from outside this file.
`growOk`: `msGrowSymbolSet` returned a symbol; `needsFallback`: the test of
line 393 on a format; `isCairo`: the macro `MS_DRIVER_CAIRO`; `useSvgCairo`:
the preprocessor symbol `USE_SVG_CAIRO`; `drawScalebar`: the result of
`msDrawScalebar` under an active format; `rest`: the status with which the
conversion and layer part (lines 422-534) ends. -/
structure EmbedCalls (Format Image : Type) where
  growOk : Bool
  needsFallback : Format → Bool
  isCairo : Format → Bool
  useSvgCairo : Bool
  /-- Modelled from the spec: the selection of an output format by its name in
  the output format registry (`msSelectOutputFormat` of mapoutput.c, not part
  of this source file). -/
  msSelectOutputFormat : String → Format
  drawScalebar : Format → Option Image
  rest : Image → Int

/-- The function `msEmbedScalebar`: the returned status and the map after the
call.  The symbol that `msGrowSymbolSet` hands out becomes the last symbol of
the set when `numsymbols` is incremented; it has no name until line 420 sets
it. -/
def msEmbedScalebar {Format Image : Type} (E : EmbedCalls Format Image) (map : EmbedMap Format) :
    Int × EmbedMap Format :=
  let index := msGetSymbolIndex map.symbols "scalebar"
  let symbols1 := if index ≠ -1 then msRemoveSymbol map.symbols index else map.symbols
  if !E.growOk then (MS_FAILURE, ⟨symbols1, map.outputformat, map.imagetype⟩)
  else
    let swap := E.needsFallback map.outputformat
    let format1 :=
      if swap then
        if E.isCairo map.outputformat then
          E.msSelectOutputFormat (if E.useSvgCairo then "svg" else "cairopng")
        else E.msSelectOutputFormat "png"
      else map.outputformat
    let image := E.drawScalebar format1
    let format2 := if swap then E.msSelectOutputFormat map.imagetype else format1
    match image with
    | none => (MS_FAILURE, ⟨symbols1 ++ [none], format2, map.imagetype⟩)
    | some img => (E.rest img, ⟨symbols1 ++ [some "scalebar"], format2, map.imagetype⟩)

/-- A sequence of calls of `msEmbedScalebar` on one map, each with its own
results from outside. -/
def embedSequence {Format Image : Type} :
    List (EmbedCalls Format Image) → EmbedMap Format → EmbedMap Format
  | [], map => map
  | E :: rest, map => embedSequence rest (msEmbedScalebar E map).2

/-- The number of symbols named "scalebar" in a symbol set. -/
def scalebarSymbols (symbols : List (Option String)) : Nat :=
  List.count (some "scalebar") symbols

/-! ## GetDeltaExtentsUsingScale (lines 550-577) -/

/-- The function `GetDeltaExtentsUsingScale`. -/
def GetDeltaExtentsUsingScale {K : Type} [LinearOrderedField K] (B : Build K) (scale : K)
    (units : Int) (centerLat : K) (width : Int) (resolution : K) : K :=
  if scale ≤ 0 ∨ width ≤ 0 then -1
  else if supportedUnit units then
    let md := ((width - 1 : Int) : K) / (resolution * msInchesPerUnit B units centerLat)
    md * scale
  else -1

/-! ## Double precision

The functions whose statements depend on rounding, given a second time with
every arithmetic operation rounded to the nearest `double`. -/

/-- Rounding to the nearest integer, a tie to the even one. -/
def roundHalfEven {K : Type} [LinearOrderedField K] [FloorRing K] (y : K) : Int :=
  if y - ⌊y⌋ < 1 / 2 then ⌊y⌋
  else if 1 / 2 < y - ⌊y⌋ then ⌊y⌋ + 1
  else if ⌊y⌋ % 2 = 0 then ⌊y⌋
  else ⌊y⌋ + 1

/-- The `double` nearest to `x` (IEEE 754 binary64, rounding to nearest, ties
to even): 53 significant bits.  The exponent is not bounded: overflow and
subnormal numbers are not represented. -/
def roundDouble {K : Type} [LinearOrderedField K] [FloorRing K] (x : K) : K :=
  if x = 0 then 0
  else (roundHalfEven (x / (2 : K) ^ (Int.log 2 |x| - 52)) : K) * (2 : K) ^ (Int.log 2 |x| - 52)

/-- The table `inchesPerUnit` as it is stored: each constant is the `double`
nearest to its decimal text. -/
def inchesPerUnitD (K : Type) [LinearOrderedField K] [FloorRing K] : List K :=
  (inchesPerUnit K).map roundDouble

/-- The local `lat_adj` of `msInchesPerUnit` on doubles; `cos` and `sqrt` of
the build return doubles. -/
def lat_adjD {K : Type} [LinearOrderedField K] [FloorRing K] (B : Build K) (center_lat : K) : K :=
  if B.ENABLE_VARIABLE_INCHES_PER_DEGREE && decide (center_lat ≠ 0) then
    let cos_lat := B.cos (roundDouble (roundDouble (B.MS_PI * center_lat) / 180))
    roundDouble (B.sqrt (roundDouble (1 + roundDouble (cos_lat * cos_lat))) / B.sqrt 2)
  else 1

/-- The function `msInchesPerUnit` on doubles. -/
def msInchesPerUnitD {K : Type} [LinearOrderedField K] [FloorRing K] (B : Build K) (units : Int)
    (center_lat : K) : K :=
  if linearUnit units then
    (inchesPerUnitD K).getD units.toNat 1
  else if units == MS_DD then
    roundDouble ((inchesPerUnitD K).getD MS_DD.toNat 1 * lat_adjD B center_lat)
  else
    1

/-- The function `msCalculateScale` on doubles. -/
def msCalculateScaleD {K : Type} [LinearOrderedField K] [FloorRing K] (B : Build K)
    (extent : rectObj K) (units width height pixeladjustment : Int) (resolution : K) (scale : K) :
    Int × K :=
  if !MS_VALID_EXTENT extent then
    (MS_FAILURE, scale)
  else if decide (width ≤ 0) || decide (height ≤ 0) then
    (MS_FAILURE, scale)
  else if supportedUnit units then
    let center_y := roundDouble (roundDouble (extent.miny + extent.maxy) / 2)
    let md := roundDouble (((width - pixeladjustment : Int) : K)
      / roundDouble (resolution * msInchesPerUnitD B units center_y))
    let gd := roundDouble (extent.maxx - extent.minx)
    (MS_SUCCESS, roundDouble (gd / md))
  else
    (MS_SUCCESS, -1)

/-- The function `GetDeltaExtentsUsingScale` on doubles. -/
def GetDeltaExtentsUsingScaleD {K : Type} [LinearOrderedField K] [FloorRing K] (B : Build K)
    (scale : K) (units : Int) (centerLat : K) (width : Int) (resolution : K) : K :=
  if scale ≤ 0 ∨ width ≤ 0 then -1
  else if supportedUnit units then
    let md := roundDouble (((width - 1 : Int) : K)
      / roundDouble (resolution * msInchesPerUnitD B units centerLat))
    roundDouble (md * scale)
  else -1

/-- The function `pow` of the C library for an exponent that is a whole
number, taken as correctly rounded: the `double` nearest to the exact power. -/
def powDouble {K : Type} [LinearOrderedField K] [FloorRing K] (b : K) (m : Int) : K :=
  roundDouble (b ^ m)

/-- The function `log10` of the C library, taken as correctly rounded: the
`double` nearest to the exact logarithm. -/
noncomputable def log10Double (x : ℝ) : ℝ :=
  roundDouble (Real.logb 10 x)

/-- The function `roundInterval2` on doubles, for `d > 0`, over a `log10` that
the C library supplies; `floor` is exact. -/
def roundInterval2D {K : Type} [LinearOrderedField K] [FloorRing K] (log10 : K → K) (d : K) : K :=
  let magnitude : Int := ⌊log10 d⌋
  let ratio := roundDouble (d / powDouble 10 magnitude)
  roundDouble (snapRatio ratio * powDouble 10 magnitude)

/-! ## General facts about the embedding -/

theorem supportedUnit_cases {units : Int} (h : supportedUnit units = true) :
    units = MS_DD ∨ linearUnit units = true := by
  simp only [supportedUnit, linearUnit, Bool.or_eq_true, beq_iff_eq] at h ⊢
  tauto

theorem linearUnit_cases {units : Int} (h : linearUnit units = true) :
    units = 0 ∨ units = 1 ∨ units = 2 ∨ units = 3 ∨ units = 4 ∨ units = 8 := by
  simp only [linearUnit, Bool.or_eq_true, beq_iff_eq, MS_METERS, MS_KILOMETERS, MS_MILES,
    MS_NAUTICALMILES, MS_INCHES, MS_FEET] at h
  omega

theorem msInchesPerUnit_linear_pos {K : Type} [LinearOrderedField K] (B : Build K) {units : Int}
    (h : linearUnit units = true) (lat : K) : 0 < msInchesPerUnit B units lat := by
  unfold msInchesPerUnit
  rw [if_pos h]
  rcases linearUnit_cases h with h | h | h | h | h | h <;> subst h <;>
    simp [inchesPerUnit]

theorem msInchesPerUnit_DD {K : Type} [LinearOrderedField K] (B : Build K) (lat : K) :
    msInchesPerUnit B MS_DD lat = 4374754 * lat_adj B lat := by
  simp [msInchesPerUnit, linearUnit, MS_DD, MS_METERS, MS_KILOMETERS, MS_MILES,
    MS_NAUTICALMILES, MS_INCHES, MS_FEET, inchesPerUnit]

theorem lat_adj_realBuild_pos (enable : Bool) (lat : ℝ) : 0 < lat_adj (realBuild enable) lat := by
  unfold lat_adj
  split
  · have h1 : 0 < 1 + Real.cos (Real.pi * lat / 180) * Real.cos (Real.pi * lat / 180) := by
      nlinarith [mul_self_nonneg (Real.cos (Real.pi * lat / 180))]
    have h2 : (0 : ℝ) < 2 := by norm_num
    exact div_pos (Real.sqrt_pos.mpr h1) (Real.sqrt_pos.mpr h2)
  · exact one_pos

theorem msInchesPerUnit_realBuild_pos (enable : Bool) {units : Int}
    (h : supportedUnit units = true) (lat : ℝ) :
    0 < msInchesPerUnit (realBuild enable) units lat := by
  rcases supportedUnit_cases h with h | h
  · subst h
    rw [msInchesPerUnit_DD]
    exact mul_pos (by norm_num) (lat_adj_realBuild_pos enable lat)
  · exact msInchesPerUnit_linear_pos _ h lat

theorem msCalculateScale_valid {K : Type} [LinearOrderedField K] (B : Build K)
    (extent : rectObj K) (units width height pixeladjustment : Int) (resolution scale : K)
    (hx : extent.minx < extent.maxx) (hy : extent.miny < extent.maxy)
    (hw : 0 < width) (hh : 0 < height) :
    msCalculateScale B extent units width height pixeladjustment resolution scale =
      if supportedUnit units then
        (MS_SUCCESS, (extent.maxx - extent.minx) /
          (((width - pixeladjustment : Int) : K) /
            (resolution * msInchesPerUnit B units ((extent.miny + extent.maxy) / 2))))
      else (MS_SUCCESS, -1) := by
  have hv : MS_VALID_EXTENT extent = true := by simp [MS_VALID_EXTENT, hx, hy]
  have hwh : (decide (width ≤ 0) || decide (height ≤ 0)) = false := by
    simp [not_le.mpr hw, not_le.mpr hh]
  simp only [msCalculateScale, hv, hwh, Bool.not_true, Bool.false_eq_true, if_false]

/-! ## The scale calculator -/

/-- C1, as stated, fails: on a valid extent with positive width and height the
call succeeds, but the scale it stores is `-1` for the unit `MS_PIXELS`, is
negative for a negative resolution, and is negative when the pixel adjustment
exceeds the width. -/
theorem C1_scale_not_always_positive :
    msCalculateScale plainBuild ⟨-180, -90, 180, 90⟩ MS_PIXELS 256 256 1 96 0 = (MS_SUCCESS, -1)
    ∧ (msCalculateScale plainBuild ⟨-180, -90, 180, 90⟩ MS_METERS 256 256 1 (-96) 0).2 < 0
    ∧ (msCalculateScale plainBuild ⟨-180, -90, 180, 90⟩ MS_METERS 1 1 2 96 0).2 < 0 := by
  refine ⟨?_, ?_, ?_⟩
  · rw [msCalculateScale_valid _ _ _ _ _ _ _ _ (by norm_num) (by norm_num) (by norm_num)
      (by norm_num)]
    simp [supportedUnit, MS_PIXELS, MS_DD, MS_METERS, MS_KILOMETERS, MS_MILES,
      MS_NAUTICALMILES, MS_INCHES, MS_FEET]
  · rw [msCalculateScale_valid _ _ _ _ _ _ _ _ (by norm_num) (by norm_num) (by norm_num)
      (by norm_num)]
    simp [supportedUnit, msInchesPerUnit, linearUnit, inchesPerUnit, MS_DD, MS_METERS,
      MS_KILOMETERS, MS_MILES, MS_NAUTICALMILES, MS_INCHES, MS_FEET]
    norm_num
  · rw [msCalculateScale_valid _ _ _ _ _ _ _ _ (by norm_num) (by norm_num) (by norm_num)
      (by norm_num)]
    simp [supportedUnit, msInchesPerUnit, linearUnit, inchesPerUnit, MS_DD, MS_METERS,
      MS_KILOMETERS, MS_MILES, MS_NAUTICALMILES, MS_INCHES, MS_FEET]
    norm_num

/-- C1, amended: for every extent with maxx > minx and maxy > miny and every
positive width and height `msCalculateScale` succeeds, in either build; the
scale it stores is positive when the unit is one of the seven supported units,
the resolution is positive and the width exceeds the pixel adjustment. -/
theorem C1_msCalculateScale_succeeds (enable : Bool) (extent : rectObj ℝ)
    (units width height pixeladjustment : Int) (resolution scale : ℝ)
    (hx : extent.minx < extent.maxx) (hy : extent.miny < extent.maxy)
    (hw : 0 < width) (hh : 0 < height) :
    (msCalculateScale (realBuild enable) extent units width height pixeladjustment
        resolution scale).1 = MS_SUCCESS
    ∧ (supportedUnit units = true → 0 < resolution → pixeladjustment < width →
        0 < (msCalculateScale (realBuild enable) extent units width height pixeladjustment
          resolution scale).2) := by
  rw [msCalculateScale_valid _ _ _ _ _ _ _ _ hx hy hw hh]
  refine ⟨by split <;> rfl, ?_⟩
  intro hu hr hp
  rw [if_pos hu]
  have hipu := msInchesPerUnit_realBuild_pos enable hu ((extent.miny + extent.maxy) / 2)
  have hwp : (0 : ℝ) < ((width - pixeladjustment : Int) : ℝ) := by
    exact_mod_cast sub_pos.mpr hp
  exact div_pos (sub_pos.mpr hx) (div_pos hwp (mul_pos hr hipu))

/-- Witness for C1 (amended): the whole world in decimal degrees on a 256 x 256
image at 96 dpi, pixel adjustment 1, with the latitude adjustment enabled. -/
theorem C1_msCalculateScale_succeeds_witness :
    (msCalculateScale (realBuild true) ⟨-180, -90, 180, 90⟩ MS_DD 256 256 1 96 0).1 = MS_SUCCESS
    ∧ 0 < (msCalculateScale (realBuild true) ⟨-180, -90, 180, 90⟩ MS_DD 256 256 1 96 0).2 :=
  have h := C1_msCalculateScale_succeeds true ⟨-180, -90, 180, 90⟩ MS_DD 256 256 1 96 0
    (by norm_num) (by norm_num) (by norm_num) (by norm_num)
  ⟨h.1, h.2 (by decide) (by norm_num) (by norm_num)⟩

/-- C2: `msCalculateScale` returns failure exactly when the extent is not valid
(not both maxx > minx and maxy > miny) or width <= 0 or height <= 0, and a
failing call leaves the contents of `*scale` as they were. -/
theorem C2_msCalculateScale_failure {K : Type} [LinearOrderedField K] (B : Build K)
    (extent : rectObj K) (units width height pixeladjustment : Int) (resolution scale : K) :
    ((msCalculateScale B extent units width height pixeladjustment resolution scale).1
        = MS_FAILURE
      ↔ (¬ (extent.minx < extent.maxx ∧ extent.miny < extent.maxy) ∨ width ≤ 0 ∨ height ≤ 0))
    ∧ ((msCalculateScale B extent units width height pixeladjustment resolution scale).1
        = MS_FAILURE →
      (msCalculateScale B extent units width height pixeladjustment resolution scale).2
        = scale) := by
  by_cases hv : extent.minx < extent.maxx ∧ extent.miny < extent.maxy
  · by_cases hwh : width ≤ 0 ∨ height ≤ 0
    · have h1 : MS_VALID_EXTENT extent = true := by simp [MS_VALID_EXTENT, hv.1, hv.2]
      have h2 : (decide (width ≤ 0) || decide (height ≤ 0)) = true := by simpa using hwh
      simp [msCalculateScale, h1, h2, hwh]
    · push_neg at hwh
      rw [msCalculateScale_valid _ _ _ _ _ _ _ _ hv.1 hv.2 hwh.1 hwh.2]
      have hne : MS_SUCCESS ≠ MS_FAILURE := by decide
      have hw : ¬ width ≤ 0 := not_le.mpr hwh.1
      have hh : ¬ height ≤ 0 := not_le.mpr hwh.2
      split <;> simp [hne, hv, hw, hh]
  · have h1 : MS_VALID_EXTENT extent = false := by
      simp only [MS_VALID_EXTENT, Bool.and_eq_false_iff, decide_eq_false_iff_not]
      tauto
    simp [msCalculateScale, h1, hv]

/-- C3: for a valid extent, positive width and height and a supported unit the
call succeeds and stores
`(maxx - minx) / ((width - pixeladjustment) / (resolution * msInchesPerUnit(unit, (miny + maxy)/2)))`. -/
theorem C3_msCalculateScale_formula {K : Type} [LinearOrderedField K] (B : Build K)
    (extent : rectObj K) (units width height pixeladjustment : Int) (resolution scale : K)
    (hx : extent.minx < extent.maxx) (hy : extent.miny < extent.maxy)
    (hw : 0 < width) (hh : 0 < height) (hu : supportedUnit units = true) :
    msCalculateScale B extent units width height pixeladjustment resolution scale =
      (MS_SUCCESS, (extent.maxx - extent.minx) /
        (((width : K) - (pixeladjustment : K)) /
          (resolution * msInchesPerUnit B units ((extent.miny + extent.maxy) / 2)))) := by
  rw [msCalculateScale_valid _ _ _ _ _ _ _ _ hx hy hw hh, if_pos hu, Int.cast_sub]

/-- Witness for C3: extent (-180, -90, 180, 90) in decimal degrees on a
256 x 256 image at resolution 96, pixel adjustment 1; the centre latitude is 0,
the inches per degree are 4374754, and the scale is 360 / (255 / (96 * 4374754)). -/
theorem C3_msCalculateScale_formula_witness :
    msCalculateScale plainBuild ⟨-180, -90, 180, 90⟩ MS_DD 256 256 1 96 0 =
      (MS_SUCCESS, (180 - (-180)) /
        ((((256 : Int) : ℚ) - ((1 : Int) : ℚ)) /
          (96 * msInchesPerUnit plainBuild MS_DD ((-90 + 90) / 2))))
    ∧ msInchesPerUnit plainBuild MS_DD ((-90 + 90) / 2) = 4374754
    ∧ (msCalculateScale plainBuild ⟨-180, -90, 180, 90⟩ MS_DD 256 256 1 96 0).2
        = 360 / (255 / (96 * 4374754)) := by
  have h := C3_msCalculateScale_formula plainBuild ⟨-180, -90, 180, 90⟩ MS_DD 256 256 1 96 0
    (by norm_num) (by norm_num) (by norm_num) (by norm_num) (by decide)
  have hipu : msInchesPerUnit plainBuild MS_DD ((-90 + 90) / 2) = 4374754 := by
    rw [msInchesPerUnit_DD]
    simp [lat_adj, plainBuild]
  refine ⟨h, hipu, ?_⟩
  rw [h]
  simp only [hipu]
  norm_num

/-- C4: for a valid extent and positive width and height, a unit outside the
seven supported ones makes `msCalculateScale` return success and store
exactly -1. -/
theorem C4_msCalculateScale_unsupported {K : Type} [LinearOrderedField K] (B : Build K)
    (extent : rectObj K) (units width height pixeladjustment : Int) (resolution scale : K)
    (hx : extent.minx < extent.maxx) (hy : extent.miny < extent.maxy)
    (hw : 0 < width) (hh : 0 < height) (hu : supportedUnit units = false) :
    msCalculateScale B extent units width height pixeladjustment resolution scale
        = (MS_SUCCESS, -1)
    ∧ MS_SUCCESS ≠ MS_FAILURE := by
  rw [msCalculateScale_valid _ _ _ _ _ _ _ _ hx hy hw hh, hu]
  exact ⟨by simp, by decide⟩

/-- Witness for C4: pixels, percentages and the out-of-range values 9 and -1 on
the whole-world extent. -/
theorem C4_msCalculateScale_unsupported_witness :
    (msCalculateScale plainBuild ⟨-180, -90, 180, 90⟩ MS_PIXELS 256 256 1 96 7
        = (MS_SUCCESS, -1) ∧ MS_SUCCESS ≠ MS_FAILURE)
    ∧ (msCalculateScale plainBuild ⟨-180, -90, 180, 90⟩ MS_PERCENTAGES 256 256 1 96 7
        = (MS_SUCCESS, -1) ∧ MS_SUCCESS ≠ MS_FAILURE)
    ∧ (msCalculateScale plainBuild ⟨-180, -90, 180, 90⟩ 9 256 256 1 96 7
        = (MS_SUCCESS, -1) ∧ MS_SUCCESS ≠ MS_FAILURE)
    ∧ (msCalculateScale plainBuild ⟨-180, -90, 180, 90⟩ (-1) 256 256 1 96 7
        = (MS_SUCCESS, -1) ∧ MS_SUCCESS ≠ MS_FAILURE) :=
  ⟨C4_msCalculateScale_unsupported plainBuild ⟨-180, -90, 180, 90⟩ MS_PIXELS 256 256 1 96 7
      (by norm_num) (by norm_num) (by norm_num) (by norm_num) (by decide),
    C4_msCalculateScale_unsupported plainBuild ⟨-180, -90, 180, 90⟩ MS_PERCENTAGES 256 256 1 96 7
      (by norm_num) (by norm_num) (by norm_num) (by norm_num) (by decide),
    C4_msCalculateScale_unsupported plainBuild ⟨-180, -90, 180, 90⟩ 9 256 256 1 96 7
      (by norm_num) (by norm_num) (by norm_num) (by norm_num) (by decide),
    C4_msCalculateScale_unsupported plainBuild ⟨-180, -90, 180, 90⟩ (-1) 256 256 1 96 7
      (by norm_num) (by norm_num) (by norm_num) (by norm_num) (by decide)⟩

/-! ## Unit conversion -/

theorem lat_adj_realBuild_true (lat : ℝ) :
    lat_adj (realBuild true) lat
      = Real.sqrt (1 + Real.cos (Real.pi * |lat| / 180) ^ 2) / Real.sqrt 2 := by
  have hcos : Real.cos (Real.pi * |lat| / 180) = Real.cos (Real.pi * lat / 180) := by
    rcases abs_choice lat with h | h
    · rw [h]
    · rw [h, mul_neg, neg_div, Real.cos_neg]
  unfold lat_adj
  by_cases h0 : lat = 0
  · subst h0
    have h2 : Real.sqrt 2 ≠ 0 := (Real.sqrt_pos.mpr (by norm_num)).ne.symm
    simp only [realBuild, ne_eq, not_true_eq_false, decide_False, Bool.and_false,
      Bool.false_eq_true, if_false, abs_zero, mul_zero, zero_div, Real.cos_zero]
    norm_num
  · simp only [realBuild, ne_eq, h0, not_false_eq_true, decide_True, Bool.and_true, if_true,
      hcos, pow_two]

theorem lat_adj_realBuild_antitone {a b : ℝ} (hab : |a| ≤ |b|) (hb : |b| ≤ 90) :
    lat_adj (realBuild true) b ≤ lat_adj (realBuild true) a := by
  rw [lat_adj_realBuild_true, lat_adj_realBuild_true]
  have hpi := Real.pi_pos
  have ha0 : 0 ≤ Real.pi * |a| / 180 := by positivity
  have hab2 : Real.pi * |a| / 180 ≤ Real.pi * |b| / 180 := by
    apply div_le_div_of_nonneg_right _ (by norm_num)
    exact mul_le_mul_of_nonneg_left hab hpi.le
  have hb2 : Real.pi * |b| / 180 ≤ Real.pi / 2 := by
    have : Real.pi * |b| ≤ Real.pi * 90 := mul_le_mul_of_nonneg_left hb hpi.le
    linarith
  have hbpi : Real.pi * |b| / 180 ≤ Real.pi := by linarith
  have hcos : Real.cos (Real.pi * |b| / 180) ≤ Real.cos (Real.pi * |a| / 180) :=
    Real.cos_le_cos_of_nonneg_of_le_pi ha0 hbpi hab2
  have hcb : 0 ≤ Real.cos (Real.pi * |b| / 180) :=
    Real.cos_nonneg_of_neg_pi_div_two_le_of_le (by linarith [ha0]) hb2
  have hsq : Real.cos (Real.pi * |b| / 180) ^ 2 ≤ Real.cos (Real.pi * |a| / 180) ^ 2 :=
    pow_le_pow_left₀ hcb hcos 2
  apply div_le_div_of_nonneg_right _ (Real.sqrt_nonneg 2)
  exact Real.sqrt_le_sqrt (by linarith)

theorem msInchesPerUnit_disabled {K : Type} [LinearOrderedField K] (B : Build K)
    (hB : B.ENABLE_VARIABLE_INCHES_PER_DEGREE = false) (units : Int) (x y : K) :
    msInchesPerUnit B units x = msInchesPerUnit B units y := by
  simp [msInchesPerUnit, lat_adj, hB]

/-- C5, as stated, fails: with the latitude adjustment enabled and decimal
degrees, |90| <= |180| but the inches per unit at 180 (the full 4374754) exceed
those at 90. -/
theorem C5_not_monotone_beyond_90 :
    |(90 : ℝ)| ≤ |(180 : ℝ)|
    ∧ msInchesPerUnit (realBuild true) MS_DD 90 < msInchesPerUnit (realBuild true) MS_DD 180
    ∧ msInchesPerUnit (realBuild true) MS_DD 180 = 4374754 := by
  have h180 : lat_adj (realBuild true) 180 = 1 := by
    rw [lat_adj_realBuild_true]
    have h2 : Real.sqrt 2 ≠ 0 := (Real.sqrt_pos.mpr (by norm_num)).ne.symm
    have : Real.pi * |(180 : ℝ)| / 180 = Real.pi := by
      rw [abs_of_pos (by norm_num)]; ring
    rw [this, Real.cos_pi]
    norm_num
  have h90 : lat_adj (realBuild true) 90 < 1 := by
    rw [lat_adj_realBuild_true]
    have : Real.pi * |(90 : ℝ)| / 180 = Real.pi / 2 := by
      rw [abs_of_pos (by norm_num)]; ring
    rw [this, Real.cos_pi_div_two]
    have h2 : 0 < Real.sqrt 2 := Real.sqrt_pos.mpr (by norm_num)
    rw [div_lt_one h2]
    exact Real.sqrt_lt_sqrt (by norm_num) (by norm_num)
  refine ⟨by norm_num, ?_, ?_⟩
  · rw [msInchesPerUnit_DD, msInchesPerUnit_DD, h180]
    nlinarith
  · rw [msInchesPerUnit_DD, h180]
    norm_num

/-- C5, amended: with the latitude adjustment enabled, `msInchesPerUnit` is
non-increasing in |lat| on the latitudes of the sphere: for every unit and all
a, b with |a| <= |b| <= 90, msInchesPerUnit(unit, b) <= msInchesPerUnit(unit, a);
with the adjustment disabled, msInchesPerUnit(unit, lat) is the same for every
lat, whatever its size. -/
theorem C5_msInchesPerUnit_monotone (units : Int) (a b : ℝ) (hab : |a| ≤ |b|)
    (hb : |b| ≤ 90) :
    msInchesPerUnit (realBuild true) units b ≤ msInchesPerUnit (realBuild true) units a
    ∧ (∀ x y : ℝ,
        msInchesPerUnit (realBuild false) units x = msInchesPerUnit (realBuild false) units y) := by
  refine ⟨?_, fun x y => msInchesPerUnit_disabled _ rfl units x y⟩
  unfold msInchesPerUnit
  split
  · exact le_rfl
  · split
    · exact mul_le_mul_of_nonneg_left (lat_adj_realBuild_antitone hab hb)
        (by simp [inchesPerUnit, MS_DD])
    · exact le_rfl

/-- Witness for C5 (amended): decimal degrees at latitudes 0 and 90. -/
theorem C5_msInchesPerUnit_monotone_witness :
    msInchesPerUnit (realBuild true) MS_DD 90 ≤ msInchesPerUnit (realBuild true) MS_DD 0
    ∧ (∀ x y : ℝ,
        msInchesPerUnit (realBuild false) MS_DD x = msInchesPerUnit (realBuild false) MS_DD y) :=
  C5_msInchesPerUnit_monotone MS_DD 0 90 (by norm_num) (by norm_num)

/-- C6: for the linear units `msInchesPerUnit` returns the table constant at
every latitude (inches 1, feet 12, miles 63360, meters 39.3701, kilometers
39370.1, nautical miles 72913.3858), in either build; for the two placeholder
entries and every other value that is not a supported unit it returns 1. -/
theorem C6_msInchesPerUnit_table {K : Type} [LinearOrderedField K] (B : Build K) (lat : K) :
    msInchesPerUnit B MS_INCHES lat = 1
    ∧ msInchesPerUnit B MS_FEET lat = 12
    ∧ msInchesPerUnit B MS_MILES lat = 63360
    ∧ msInchesPerUnit B MS_METERS lat = 39.3701
    ∧ msInchesPerUnit B MS_KILOMETERS lat = 39370.1
    ∧ msInchesPerUnit B MS_NAUTICALMILES lat = 72913.3858
    ∧ msInchesPerUnit B MS_PIXELS lat = 1
    ∧ msInchesPerUnit B MS_PERCENTAGES lat = 1
    ∧ (∀ units : Int, supportedUnit units = false → msInchesPerUnit B units lat = 1) := by
  refine ⟨?_, ?_, ?_, ?_, ?_, ?_, ?_, ?_, ?_⟩
  · simp [msInchesPerUnit, linearUnit, inchesPerUnit, MS_DD, MS_METERS, MS_KILOMETERS,
      MS_MILES, MS_NAUTICALMILES, MS_INCHES, MS_FEET]
  · simp [msInchesPerUnit, linearUnit, inchesPerUnit, MS_DD, MS_METERS, MS_KILOMETERS,
      MS_MILES, MS_NAUTICALMILES, MS_INCHES, MS_FEET]
  · simp [msInchesPerUnit, linearUnit, inchesPerUnit, MS_DD, MS_METERS, MS_KILOMETERS,
      MS_MILES, MS_NAUTICALMILES, MS_INCHES, MS_FEET]
  · simp [msInchesPerUnit, linearUnit, inchesPerUnit, MS_DD, MS_METERS, MS_KILOMETERS,
      MS_MILES, MS_NAUTICALMILES, MS_INCHES, MS_FEET]
    norm_num
  · simp [msInchesPerUnit, linearUnit, inchesPerUnit, MS_DD, MS_METERS, MS_KILOMETERS,
      MS_MILES, MS_NAUTICALMILES, MS_INCHES, MS_FEET]
    norm_num
  · simp [msInchesPerUnit, linearUnit, inchesPerUnit, MS_DD, MS_METERS, MS_KILOMETERS,
      MS_MILES, MS_NAUTICALMILES, MS_INCHES, MS_FEET]
    norm_num
  · simp [msInchesPerUnit, linearUnit, MS_PIXELS, MS_DD, MS_METERS, MS_KILOMETERS,
      MS_MILES, MS_NAUTICALMILES, MS_INCHES, MS_FEET]
  · simp [msInchesPerUnit, linearUnit, MS_PERCENTAGES, MS_DD, MS_METERS, MS_KILOMETERS,
      MS_MILES, MS_NAUTICALMILES, MS_INCHES, MS_FEET]
  · intro units hu
    simp only [supportedUnit, Bool.or_eq_false_iff] at hu
    simp [msInchesPerUnit, linearUnit, hu]

/-! ## Log-ratio rounding -/

theorem magnitude_eq_iff {K : Type} [LinearOrderedField K] [FloorRing K] {d : K} (hd : 0 < d)
    (m : Int) : magnitude d = m ↔ (10 : K) ^ m ≤ d ∧ d < (10 : K) ^ (m + 1) := by
  have hb : 1 < (10 : ℕ) := by norm_num
  have h1 := Int.zpow_le_iff_le_log hb hd (x := m)
  have h2 := Int.lt_zpow_iff_log_lt hb hd (x := m + 1)
  simp only [Nat.cast_ofNat] at h1 h2
  unfold magnitude
  rw [h1, h2]
  omega

theorem roundInterval2_of_pos {K : Type} [LinearOrderedField K] [FloorRing K] {d : K}
    (hd : 0 < d) : roundInterval2 d = snapRatio (ratio d) * (10 : K) ^ magnitude d := by
  unfold roundInterval2
  rw [if_pos hd]

theorem roundInterval2_zero {K : Type} [LinearOrderedField K] [FloorRing K] :
    roundInterval2 (0 : K) = 0 := by
  simp [roundInterval2]

theorem roundInterval2_of_bounds {K : Type} [LinearOrderedField K] [FloorRing K] {d : K}
    (m : Int) (h1 : (10 : K) ^ m ≤ d) (h2 : d < (10 : K) ^ (m + 1)) :
    roundInterval2 d = snapRatio (d / (10 : K) ^ m) * (10 : K) ^ m := by
  have hp : (0 : K) < (10 : K) ^ m := zpow_pos (by norm_num) _
  have hd : 0 < d := lt_of_lt_of_le hp h1
  have hm : magnitude d = m := (magnitude_eq_iff hd m).mpr ⟨h1, h2⟩
  rw [roundInterval2_of_pos hd]
  simp only [ratio, hm]

theorem snapRatio_cases {K : Type} [LinearOrderedField K] (r : K) :
    snapRatio r = 1 ∨ snapRatio r = 2 ∨ snapRatio r = 5 ∨ snapRatio r = 10 := by
  unfold snapRatio
  split_ifs <;> simp

theorem roundInterval2_scaled {K : Type} [LinearOrderedField K] [FloorRing K] (m : Int) (c : K)
    (h1 : 1 ≤ c) (h2 : c < 10) :
    roundInterval2 (c * (10 : K) ^ m) = snapRatio c * (10 : K) ^ m := by
  have hp : (0 : K) < (10 : K) ^ m := zpow_pos (by norm_num) _
  have hb1 : (10 : K) ^ m ≤ c * (10 : K) ^ m := by nlinarith
  have hb2 : c * (10 : K) ^ m < (10 : K) ^ (m + 1) := by
    rw [zpow_add_one₀ (by norm_num : (10 : K) ≠ 0)]
    nlinarith
  rw [roundInterval2_of_bounds m hb1 hb2, mul_div_assoc, div_self hp.ne.symm, mul_one]

/-- C7, amended: in exact arithmetic log-ratio rounding is idempotent: for
every x > 0, roundInterval2(roundInterval2(x)) = roundInterval2(x), the
operations of `roundInterval2` taken without rounding. -/
theorem C7_roundInterval2_idempotent {K : Type} [LinearOrderedField K] [FloorRing K] (x : K)
    (hx : 0 < x) : roundInterval2 (roundInterval2 x) = roundInterval2 x := by
  have hten : (10 : K) * (10 : K) ^ magnitude x = 1 * (10 : K) ^ (magnitude x + 1) := by
    rw [zpow_add_one₀ (by norm_num : (10 : K) ≠ 0)]
    ring
  have hs : ∀ c : K, c = 1 ∨ c = 2 ∨ c = 5 → snapRatio c = c := by
    intro c hc
    rcases hc with h | h | h <;> subst h <;> simp [snapRatio] <;> norm_num
  rw [roundInterval2_of_pos hx]
  rcases snapRatio_cases (ratio x) with h | h | h | h
  · rw [h, roundInterval2_scaled (magnitude x) (1 : K) (by norm_num) (by norm_num),
      hs 1 (by simp)]
  · rw [h, roundInterval2_scaled (magnitude x) (2 : K) (by norm_num) (by norm_num),
      hs 2 (by simp)]
  · rw [h, roundInterval2_scaled (magnitude x) (5 : K) (by norm_num) (by norm_num),
      hs 5 (by simp)]
  · rw [h, hten, roundInterval2_scaled (magnitude x + 1) (1 : K) (by norm_num) (by norm_num),
      hs 1 (by simp)]

/-- Witness for C7: x = 3750 rounds to 2000, and 2000 rounds to itself. -/
theorem C7_roundInterval2_idempotent_witness :
    roundInterval2 (roundInterval2 (3750 : ℚ)) = roundInterval2 (3750 : ℚ)
    ∧ roundInterval2 (3750 : ℚ) = 2000 := by
  refine ⟨C7_roundInterval2_idempotent (3750 : ℚ) (by norm_num), ?_⟩
  rw [roundInterval2_of_bounds 3 (by norm_num) (by norm_num)]
  simp [snapRatio]
  norm_num

theorem loopStart_shift {K : Type} [LinearOrderedField K] [FloorRing K] (B : Build K)
    (L : Layout K) (units dsx : Int) (n : Nat) :
    loopStart B L units dsx (n + 1)
      = loopStart B L (loopBody B L units dsx).units (dsx - X_STEP_SIZE) n := by
  induction n with
  | zero => rfl
  | succ n ih =>
    conv_lhs => rw [loopStart]
    rw [ih]
    rfl

theorem passVars_shift {K : Type} [LinearOrderedField K] [FloorRing K] (B : Build K)
    (L : Layout K) (units dsx : Int) (n : Nat) :
    passVars B L units dsx (n + 1)
      = passVars B L (loopBody B L units dsx).units (dsx - X_STEP_SIZE) n := by
  unfold passVars
  rw [loopStart_shift]

theorem loopStart_dsx {K : Type} [LinearOrderedField K] [FloorRing K] (B : Build K)
    (L : Layout K) (units dsx : Int) (n : Nat) :
    (loopStart B L units dsx n).2 = dsx - X_STEP_SIZE * n := by
  induction n with
  | zero => simp [loopStart]
  | succ n ih =>
    rw [loopStart]
    simp only [ih]
    push_cast
    ring

theorem layoutLoop_eq_some_iff {K : Type} [LinearOrderedField K] [FloorRing K] (B : Build K)
    (L : Layout K) (fuel : Nat) : ∀ (units dsx : Int) (v : LoopVars K),
    layoutLoop B L fuel units dsx = some v ↔
      ∃ n, n < fuel ∧ (∀ k, k < n → fits L (passVars B L units dsx k) = false)
        ∧ fits L (passVars B L units dsx n) = true ∧ v = passVars B L units dsx n := by
  induction fuel with
  | zero =>
    intro units dsx v
    simp [layoutLoop]
  | succ fuel ih =>
    intro units dsx v
    have h0 : passVars B L units dsx 0 = loopBody B L units dsx := rfl
    rw [layoutLoop]
    by_cases hf : fits L (loopBody B L units dsx) = true
    · simp only [hf, if_true]
      constructor
      · intro h
        refine ⟨0, Nat.succ_pos _, fun k hk => absurd hk (Nat.not_lt_zero k), ?_, ?_⟩
        · rw [h0]; exact hf
        · rw [h0]; exact (Option.some.inj h).symm
      · rintro ⟨n, _, hlt, _, hv⟩
        cases n with
        | zero => rw [hv, h0]
        | succ n =>
          have := hlt 0 (Nat.succ_pos n)
          rw [h0, hf] at this
          exact absurd this (by decide)
    · have hf2 : fits L (loopBody B L units dsx) = false := by
        simpa using hf
      simp only [hf2, Bool.false_eq_true, if_false]
      rw [ih]
      constructor
      · rintro ⟨n, hn, hlt, hfit, hv⟩
        refine ⟨n + 1, Nat.succ_lt_succ hn, ?_, ?_, ?_⟩
        · intro k hk
          cases k with
          | zero => rw [h0]; exact hf2
          | succ k =>
            rw [passVars_shift]
            exact hlt k (Nat.lt_of_succ_lt_succ hk)
        · rw [passVars_shift]; exact hfit
        · rw [passVars_shift]; exact hv
      · rintro ⟨n, hn, hlt, hfit, hv⟩
        cases n with
        | zero =>
          rw [h0, hf2] at hfit
          exact absurd hfit (by decide)
        | succ n =>
          refine ⟨n, Nat.lt_of_succ_lt_succ hn, ?_, ?_, ?_⟩
          · intro k hk
            have := hlt (k + 1) (Nat.succ_lt_succ hk)
            rwa [passVars_shift] at this
          · rwa [passVars_shift] at hfit
          · rwa [passVars_shift] at hv

theorem MS_NINT_nonneg {K : Type} [LinearOrderedField K] [FloorRing K] {x : K} (hx : 0 ≤ x) :
    0 ≤ MS_NINT x := by
  unfold MS_NINT
  rw [if_pos hx]
  exact Int.floor_nonneg.mpr (by linarith)

theorem le_MS_NINT {K : Type} [LinearOrderedField K] [FloorRing K] {x : K} (n : Int)
    (hx : 0 ≤ x) (hn : (n : K) ≤ x) : n ≤ MS_NINT x := by
  unfold MS_NINT
  rw [if_pos hx]
  exact Int.le_floor.mpr (by linarith)

theorem snapRatio_pos {K : Type} [LinearOrderedField K] (r : K) : 0 < snapRatio r := by
  rcases snapRatio_cases r with h | h | h | h <;> rw [h] <;> norm_num

theorem roundInterval2_nonneg {K : Type} [LinearOrderedField K] [FloorRing K] (d : K) :
    0 ≤ roundInterval2 d := by
  unfold roundInterval2
  split
  · exact (mul_pos (snapRatio_pos _) (zpow_pos (by norm_num) _)).le
  · exact le_rfl

theorem msInchesPerUnit_INCHES {K : Type} [LinearOrderedField K] (B : Build K) (lat : K) :
    msInchesPerUnit B MS_INCHES lat = 1 := by
  simp [msInchesPerUnit, linearUnit, inchesPerUnit, MS_DD, MS_METERS, MS_KILOMETERS,
    MS_MILES, MS_NAUTICALMILES, MS_INCHES, MS_FEET]

theorem wideFont_pass (labelLen : ℚ → Nat) (units dsx : Int) (hu : units = MS_INCHES) :
    (loopBody plainBuild ⟨1, MS_INCHES, 1, 100, 34, 3, labelLen⟩ units dsx).units = MS_INCHES
    ∧ fits ⟨1, MS_INCHES, 1, 100, 34, 3, labelLen⟩
        (loopBody plainBuild ⟨1, MS_INCHES, 1, 100, 34, 3, labelLen⟩ units dsx) = false := by
  subst hu
  have hunits : ∀ i : ℚ, adjustUnits MS_INCHES i = (MS_INCHES, i) := by
    intro i
    simp [adjustUnits, MS_INCHES, MS_METERS, MS_KILOMETERS]
  have hlen : (unitText.getD MS_INCHES.toNat "").length = 2 := by decide
  have hpad : ∀ n : Nat, (350 : Int) ≤ MS_NINT ((3 / 2 + (n : ℚ) / 2 + ((2 : Nat) : ℚ)) * 100) := by
    intro n
    have hl : (0 : ℚ) ≤ (n : ℚ) := Nat.cast_nonneg _
    apply le_MS_NINT
    · push_cast; nlinarith
    · push_cast; nlinarith
  unfold loopBody
  simp only [msInchesPerUnit_INCHES, hunits, hlen]
  split
  · refine ⟨rfl, ?_⟩
    simp only [fits, decide_eq_false_iff_not, not_le, plainBuild]
    have := hpad 3
    linarith
  · refine ⟨rfl, ?_⟩
    simp only [fits, segmentWidth, msInchesPerUnit_INCHES, decide_eq_false_iff_not, not_le]
    have h1 : 0 ≤ MS_NINT (roundInterval2 ((1 * (dsx : ℚ)) / (1 / 1) / ((1 : Int) : ℚ))
        / (1 / 1) / 1) :=
      MS_NINT_nonneg (div_nonneg (div_nonneg (roundInterval2_nonneg _) (by norm_num))
        (by norm_num))
    have := hpad (labelLen (((1 : Int) : ℚ) *
      roundInterval2 ((1 * (dsx : ℚ)) / (1 / 1) / ((1 : Int) : ℚ))))
    linarith

/-- C10, as stated, fails: the loop has no exit on an exhausted budget.  With a
scaled width of 34, margin 3, one interval, inches on both sides, cell size 1
and a font width of 100 (whatever the label lengths), none of the six passes
with dsx = 28, 23, 18, 13, 8, 3 fits, so none takes the `break`, and the loop
enters a seventh pass, more than 34 / 5 passes, with dsx = -2. -/
theorem C10_loop_overruns_budget :
    (34 : ℚ) / 5 < 7
    ∧ ∀ labelLen : ℚ → Nat,
        layoutLoop plainBuild ⟨1, MS_INCHES, 1, 100, 34, 3, labelLen⟩ 6 MS_INCHES (34 - 2 * 3)
          = none
        ∧ (∀ k, k < 6 →
            0 < (loopStart plainBuild ⟨1, MS_INCHES, 1, 100, 34, 3, labelLen⟩ MS_INCHES
              (34 - 2 * 3) k).2)
        ∧ loopStart plainBuild ⟨1, MS_INCHES, 1, 100, 34, 3, labelLen⟩ MS_INCHES (34 - 2 * 3) 6
            = (MS_INCHES, -2) := by
  refine ⟨by norm_num, fun labelLen => ⟨?_, ?_, ?_⟩⟩
  · simp only [layoutLoop, (wideFont_pass labelLen _ _ rfl).2, (wideFont_pass labelLen _ _ rfl).1,
      Bool.false_eq_true, if_false]
  · intro k hk
    rw [loopStart_dsx]
    simp only [X_STEP_SIZE]
    have : (k : Int) < 6 := by exact_mod_cast hk
    omega
  · simp only [loopStart, (wideFont_pass labelLen _ _ rfl).1, X_STEP_SIZE]
    rfl

/-- C10, amended: the layout loop is left only through the `break` of a fitting
pass.  Run for at most `fuel` passes it has exited with the values v exactly
when some pass n < fuel is the first one whose sx fits
(sx <= scalebarWidth - 2*hMargin) and v are the values of that pass; pass n is
entered with dsx lowered to dsx - 5 * n, and nothing stops the loop when that
budget is no longer positive. -/
theorem C10_layoutLoop_exit_iff_fit {K : Type} [LinearOrderedField K] [FloorRing K]
    (B : Build K) (L : Layout K) (fuel : Nat) (units dsx : Int) (v : LoopVars K) :
    (layoutLoop B L fuel units dsx = some v ↔
      ∃ n, n < fuel ∧ (∀ k, k < n → fits L (passVars B L units dsx k) = false)
        ∧ fits L (passVars B L units dsx n) = true ∧ v = passVars B L units dsx n)
    ∧ (∀ n : Nat, (loopStart B L units dsx n).2 = dsx - 5 * n) :=
  ⟨layoutLoop_eq_some_iff B L fuel units dsx v, fun n => loopStart_dsx B L units dsx n⟩

/-- C11: the unit adjustment of a loop pass maps (unit, interval i) to
(kilometers, i / 1000) when the unit is meters and i >= 1000 (1500 m becomes
1.5 km), to (meters, i * 1000) when the unit is kilometers and i <= 0.001
(0.0005 km becomes 0.5 m), and leaves unit and interval unchanged in every
other case, in particular for every unit other than meters and kilometers;
each pass applies it to the rounded interval (in a pass whose interval is a
NaN, the argument of `roundInterval2` being negative, both comparisons fail
and the unit stays as it is). -/
theorem C11_adjustUnits {K : Type} [LinearOrderedField K] [FloorRing K] (B : Build K)
    (L : Layout K) (units dsx : Int) (i : K) :
    (units = MS_METERS → 1000 ≤ i → adjustUnits units i = (MS_KILOMETERS, i / 1000))
    ∧ (units = MS_KILOMETERS → i ≤ 0.001 → adjustUnits units i = (MS_METERS, i * 1000))
    ∧ (¬ (units = MS_METERS ∧ 1000 ≤ i) → ¬ (units = MS_KILOMETERS ∧ i ≤ 0.001) →
        adjustUnits units i = (units, i))
    ∧ (units ≠ MS_METERS → units ≠ MS_KILOMETERS → adjustUnits units i = (units, i))
    ∧ adjustUnits MS_METERS (1500 : K) = (MS_KILOMETERS, 1.5)
    ∧ adjustUnits MS_KILOMETERS (0.0005 : K) = (MS_METERS, 0.5)
    ∧ (0 ≤ (L.cellsize * (dsx : K)) / (msInchesPerUnit B units 0 / msInchesPerUnit B L.mapUnits 0)
          / (L.intervals : K) →
        ((loopBody B L units dsx).units, (loopBody B L units dsx).i)
          = ((adjustUnits units (roundInterval2
              ((L.cellsize * (dsx : K))
                / (msInchesPerUnit B units 0 / msInchesPerUnit B L.mapUnits 0)
                / (L.intervals : K)))).1,
            some (adjustUnits units (roundInterval2
              ((L.cellsize * (dsx : K))
                / (msInchesPerUnit B units 0 / msInchesPerUnit B L.mapUnits 0)
                / (L.intervals : K)))).2))
    ∧ ((L.cellsize * (dsx : K)) / (msInchesPerUnit B units 0 / msInchesPerUnit B L.mapUnits 0)
          / (L.intervals : K) < 0 →
        (loopBody B L units dsx).units = units ∧ (loopBody B L units dsx).i = none) := by
  have hmk : MS_METERS ≠ MS_KILOMETERS := by decide
  have h001 : (0.001 : K) = 1 / 1000 := by norm_num
  rw [h001]
  refine ⟨?_, ?_, ?_, ?_, ?_, ?_, ?_, ?_⟩
  rotate_left 6
  · intro hd
    unfold loopBody
    simp only []
    rw [if_neg (not_lt.mpr hd)]
  · intro hd
    unfold loopBody
    simp only []
    rw [if_pos hd]
    exact ⟨rfl, rfl⟩
  · intro hu hi
    simp [adjustUnits, hu, hi]
  · intro hu hi
    subst hu
    unfold adjustUnits
    rw [if_neg (by simp [hmk.symm]), if_pos (by simpa using hi)]
  · intro h1 h2
    unfold adjustUnits
    rw [if_neg (by simpa using h1), if_neg (by simpa using h2)]
  · intro h1 h2
    simp [adjustUnits, h1, h2]
  · simp [adjustUnits]
    norm_num
  · simp [adjustUnits, hmk.symm]
    norm_num

theorem MS_NINT_intCast {K : Type} [LinearOrderedField K] [FloorRing K] (n : Int) (hn : 0 ≤ n) :
    MS_NINT (n : K) = n := by
  unfold MS_NINT
  rw [if_pos (by exact_mod_cast hn), Int.floor_eq_iff]
  constructor <;> linarith

/-- C18: whenever the layout loop exits, the content width sx of the exiting
pass satisfies sx <= scalebarWidth - 2*hMargin for the scaled configured
width; for an embedded scalebar the image width is exactly sx + 2*hMargin,
which is at most the scaled configured width (the image width is the scaled
configured width otherwise). -/
theorem C18_exit_fits {K : Type} [LinearOrderedField K] [FloorRing K] (B : Build K)
    (L : Layout K) (fuel : Nat) (units dsx : Int) (v : LoopVars K)
    (h : layoutLoop B L fuel units dsx = some v) :
    v.sx ≤ L.scalebarWidth - 2 * L.hMargin
    ∧ imageWidth L true v = v.sx + 2 * L.hMargin
    ∧ imageWidth L true v ≤ L.scalebarWidth
    ∧ imageWidth L false v = L.scalebarWidth := by
  obtain ⟨n, _, _, hfit, hv⟩ := (layoutLoop_eq_some_iff B L fuel units dsx v).mp h
  rw [← hv] at hfit
  have hsx : v.sx ≤ L.scalebarWidth - 2 * L.hMargin := by
    simpa [fits] using hfit
  refine ⟨hsx, by simp [imageWidth], ?_, by simp [imageWidth]⟩
  simp only [imageWidth, if_true]
  linarith

theorem layoutLoop_first_pass_example :
    layoutLoop plainBuild ⟨1, MS_INCHES, 1, 1, 41, 3, fun _ => 2⟩ 1 MS_INCHES (41 - 2 * 3)
      = some ⟨MS_INCHES, some 20, 20, 25⟩ := by
  have hr : roundInterval2 (35 : ℚ) = 20 := by
    rw [roundInterval2_of_bounds 1 (by norm_num) (by norm_num)]
    simp [snapRatio]
    norm_num
  have hn : MS_NINT (20 : ℚ) = 20 := by
    have := MS_NINT_intCast (K := ℚ) 20 (by norm_num)
    simpa using this
  have hp : MS_NINT (9 / 2 : ℚ) = 5 := by
    unfold MS_NINT
    rw [if_pos (by norm_num), Int.floor_eq_iff]
    constructor <;> norm_num
  have hlen : (unitText.getD MS_INCHES.toNat "").length = 2 := by decide
  have hbody : loopBody plainBuild ⟨1, MS_INCHES, 1, 1, 41, 3, fun _ => 2⟩ MS_INCHES (41 - 2 * 3)
      = ⟨MS_INCHES, some 20, 20, 25⟩ := by
    have hunits : ∀ i : ℚ, adjustUnits MS_INCHES i = (MS_INCHES, i) := by
      intro i
      simp [adjustUnits, MS_INCHES, MS_METERS, MS_KILOMETERS]
    simp only [loopBody, hunits, segmentWidth, msInchesPerUnit_INCHES, hlen]
    norm_num [hr, hn, hp]
  rw [layoutLoop, hbody]
  simp [fits]

/-- Witness for C18: scaled width 41, margin 3, one interval, inches on both
sides, cell size 1, font width 1, labels of two characters: the first pass has
dsx = 35, interval 20, isx = 20 and sx = 20 + 5 = 25, which fits, and the
embedded image is 31 wide. -/
theorem C18_exit_fits_witness :
    layoutLoop plainBuild ⟨1, MS_INCHES, 1, 1, 41, 3, fun _ => 2⟩ 1 MS_INCHES (41 - 2 * 3)
      = some ⟨MS_INCHES, some 20, 20, 25⟩
    ∧ ((25 : Int) ≤ 41 - 2 * 3
      ∧ imageWidth (⟨1, MS_INCHES, 1, 1, 41, 3, fun _ => 2⟩ : Layout ℚ) true
          ⟨MS_INCHES, some 20, 20, 25⟩ = 25 + 2 * 3
      ∧ imageWidth (⟨1, MS_INCHES, 1, 1, 41, 3, fun _ => 2⟩ : Layout ℚ) true
          ⟨MS_INCHES, some 20, 20, 25⟩ ≤ 41
      ∧ imageWidth (⟨1, MS_INCHES, 1, 1, 41, 3, fun _ => 2⟩ : Layout ℚ) false
          ⟨MS_INCHES, some 20, 20, 25⟩ = 41) :=
  ⟨layoutLoop_first_pass_example,
    C18_exit_fits plainBuild ⟨1, MS_INCHES, 1, 1, 41, 3, fun _ => 2⟩ 1 MS_INCHES
      (41 - 2 * 3) ⟨MS_INCHES, some 20, 20, 25⟩ layoutLoop_first_pass_example⟩

/-! ## The return paths of msDrawScalebar -/

theorem msDrawScalebar_cases {K Image : Type} [LinearOrderedField K] [FloorRing K]
    (B : Build K) (c : ScalebarCall K Image) (fuel : Nat) :
    msDrawScalebar B c fuel = Outcome.returned none
    ∨ (c.units ≠ -1
      ∧ (∃ r, c.renderer = some r ∧ ¬ (r.supports_pixel_buffer = 0 ∧ r.supports_svg = 0))
      ∧ msDrawScalebar B c fuel =
          match layoutLoop B c.layout fuel c.scalebarUnits (c.scalebarWidth - 2 * c.hMargin) with
          | none => Outcome.running
          | some v =>
            match c.msImageCreate (imageWidth c.layout c.embed v) c.sy with
            | none => Outcome.returned none
            | some image =>
              if c.style = 0 ∨ c.style = 1 then Outcome.returned (some (c.draw image v))
              else Outcome.returned none) := by
  unfold msDrawScalebar
  by_cases hu : c.units = -1
  · left
    rw [if_pos hu]
  · rw [if_neg hu]
    cases hr : c.renderer with
    | none => left; rfl
    | some r =>
      simp only []
      by_cases hs : r.supports_pixel_buffer = 0 ∧ r.supports_svg = 0
      · left
        rw [if_pos hs]
      · rw [if_neg hs]
        by_cases hl : c.labelSizeStatus ≠ MS_SUCCESS
        · left
          rw [if_pos hl]
        · rw [if_neg hl]
          by_cases hsc : (msCalculateScale B c.extent c.units c.width c.height c.pixeladjustment
              c.resolution c.scaledenom).1 ≠ MS_SUCCESS
          · left
            rw [if_pos hsc]
          · right
            rw [if_neg hsc]
            exact ⟨hu, ⟨r, rfl, hs⟩, rfl⟩

/-- An execution that returns an image: an embedded scalebar in inches on a
map in inches, extent (0, 0, 100, 100) on 101 x 101 pixels, scaled width 41,
the image creation succeeding with the size it is asked for, style 0. -/
theorem msDrawScalebar_returns_image_example :
    msDrawScalebar plainBuild
      (⟨MS_INCHES, some ⟨1, 0⟩, MS_SUCCESS, ⟨0, 0, 100, 100⟩, 101, 101, 1, 72, 0, 1, 1, 1, 41, 3,
        fun _ => 2, MS_INCHES, true, 20, fun w h => some (w, h), 0, fun image _ => image⟩ :
        ScalebarCall ℚ (Int × Int)) 1
      = Outcome.returned (some (31, 20)) := by
  have hloop := layoutLoop_first_pass_example
  have hs : (msCalculateScale plainBuild (⟨0, 0, 100, 100⟩ : rectObj ℚ) MS_INCHES 101 101 1 72
      0).1 = MS_SUCCESS := by
    rw [msCalculateScale_valid _ _ _ _ _ _ _ _ (by norm_num) (by norm_num) (by norm_num)
      (by norm_num)]
    split <;> rfl
  unfold msDrawScalebar
  rw [if_neg (by decide)]
  simp only [ScalebarCall.layout]
  rw [if_neg (by decide), if_neg (by decide), if_neg (by simp [hs])]
  simp only [hloop]
  simp [imageWidth]

theorem wideFont_never_exits (labelLen : ℚ → Nat) :
    ∀ (fuel : Nat) (dsx : Int),
      layoutLoop plainBuild ⟨1, MS_INCHES, 1, 100, 34, 3, labelLen⟩ fuel MS_INCHES dsx = none := by
  intro fuel
  induction fuel with
  | zero => intro dsx; rfl
  | succ n ih =>
    intro dsx
    rw [layoutLoop]
    simp only [(wideFont_pass labelLen _ dsx rfl).2, (wideFont_pass labelLen _ dsx rfl).1,
      Bool.false_eq_true, if_false]
    exact ih _

/-- C12, as stated, fails: a call with a style that is neither 0 nor 1 need
not return `NULL`, because it need not return.  On a map in inches with a
usable renderer and the extent (0, 0, 100, 100) on 101 x 101 pixels (cell size
1), a scalebar in inches with one interval, scaled width 34, margin 3, font
width 100 and style 7 never leaves the layout loop: the passes with
dsx = 28, ..., 3 have sx >= 402, and from dsx = -2 on the interval is a NaN,
`isx` is 0 and the label padding alone is 500, against a budget of 28.  The
style is tested only after the loop. -/
theorem C12_style7_never_returns :
    (7 : Int) ≠ 0 ∧ (7 : Int) ≠ 1
    ∧ ∀ (labelLen : ℚ → Nat) (fuel : Nat),
        msDrawScalebar plainBuild
          (⟨MS_INCHES, some ⟨1, 0⟩, MS_SUCCESS, ⟨0, 0, 100, 100⟩, 101, 101, 1, 72, 0, 1, 1, 100,
            34, 3, labelLen, MS_INCHES, false, 20, fun w h => some (w, h), 7,
            fun image _ => image⟩ : ScalebarCall ℚ (Int × Int)) fuel
          = Outcome.running := by
  refine ⟨by decide, by decide, fun labelLen fuel => ?_⟩
  have hloop := wideFont_never_exits labelLen fuel (34 - 2 * 3)
  have hs : (msCalculateScale plainBuild (⟨0, 0, 100, 100⟩ : rectObj ℚ) MS_INCHES 101 101 1 72
      0).1 = MS_SUCCESS := by
    rw [msCalculateScale_valid _ _ _ _ _ _ _ _ (by norm_num) (by norm_num) (by norm_num)
      (by norm_num)]
    split <;> rfl
  have hu : ¬ (MS_INCHES = -1) := by decide
  have hr : ¬ ((1 : Int) = 0 ∧ True) := by simp
  have hl : ¬ (MS_SUCCESS ≠ MS_SUCCESS) := by simp
  have hc : ¬ ((msCalculateScale plainBuild (⟨0, 0, 100, 100⟩ : rectObj ℚ) MS_INCHES 101 101 1
      72 0).1 ≠ MS_SUCCESS) := by simp [hs]
  unfold msDrawScalebar
  simp only [ScalebarCall.layout]
  rw [if_neg hu, if_neg hr, if_neg hl, if_neg hc]
  simp only [hloop]

/-- C12, amended: `msDrawScalebar` returns `NULL` when the map unit is unset
(`map->units == -1`), when the map has no renderer or its renderer supports
neither pixel buffers nor SVG (both before the layout loop, so for every
number of passes), and, once the layout loop has exited, when the image
creation fails or the style is neither 0 nor 1; an image is returned only when
none of these conditions holds, and then it is the created image after
drawing. -/
theorem C12_msDrawScalebar_null {K Image : Type} [LinearOrderedField K] [FloorRing K]
    (B : Build K) (c : ScalebarCall K Image) (fuel : Nat) :
    (c.units = -1 → msDrawScalebar B c fuel = Outcome.returned none)
    ∧ (c.renderer = none → msDrawScalebar B c fuel = Outcome.returned none)
    ∧ (∀ r, c.renderer = some r → r.supports_pixel_buffer = 0 → r.supports_svg = 0 →
        msDrawScalebar B c fuel = Outcome.returned none)
    ∧ (∀ v, layoutLoop B c.layout fuel c.scalebarUnits (c.scalebarWidth - 2 * c.hMargin) = some v →
        c.msImageCreate (imageWidth c.layout c.embed v) c.sy = none →
        msDrawScalebar B c fuel = Outcome.returned none)
    ∧ (∀ v, layoutLoop B c.layout fuel c.scalebarUnits (c.scalebarWidth - 2 * c.hMargin) = some v →
        c.style ≠ 0 → c.style ≠ 1 → msDrawScalebar B c fuel = Outcome.returned none)
    ∧ (∀ img, msDrawScalebar B c fuel = Outcome.returned (some img) →
        c.units ≠ -1
        ∧ (∃ r, c.renderer = some r ∧ ¬ (r.supports_pixel_buffer = 0 ∧ r.supports_svg = 0))
        ∧ (∃ v image,
            layoutLoop B c.layout fuel c.scalebarUnits (c.scalebarWidth - 2 * c.hMargin) = some v
            ∧ c.msImageCreate (imageWidth c.layout c.embed v) c.sy = some image
            ∧ img = c.draw image v)
        ∧ (c.style = 0 ∨ c.style = 1)) := by
  refine ⟨?_, ?_, ?_, ?_, ?_, ?_⟩
  · intro h
    simp [msDrawScalebar, h]
  · intro h
    simp [msDrawScalebar, h]
  · intro r hr h1 h2
    simp [msDrawScalebar, hr, h1, h2]
  · intro v hv hc
    rcases msDrawScalebar_cases B c fuel with h | ⟨_, _, h⟩
    · exact h
    · rw [h]
      simp only [hv, hc]
  · intro v hv h0 h1
    rcases msDrawScalebar_cases B c fuel with h | ⟨_, _, h⟩
    · exact h
    · rw [h]
      simp only [hv]
      cases c.msImageCreate (imageWidth c.layout c.embed v) c.sy with
      | none => rfl
      | some image => simp [h0, h1]
  · intro img h
    rcases msDrawScalebar_cases B c fuel with h2 | ⟨hu, hr, h2⟩
    · rw [h2] at h
      exact absurd h (by simp)
    · rw [h2] at h
      cases hv : layoutLoop B c.layout fuel c.scalebarUnits (c.scalebarWidth - 2 * c.hMargin) with
      | none =>
        rw [hv] at h
        exact absurd h (by simp)
      | some v =>
        rw [hv] at h
        simp only [] at h
        cases hi : c.msImageCreate (imageWidth c.layout c.embed v) c.sy with
        | none =>
          rw [hi] at h
          exact absurd h (by simp)
        | some image =>
          rw [hi] at h
          simp only [] at h
          by_cases hst : c.style = 0 ∨ c.style = 1
          · rw [if_pos hst] at h
            refine ⟨hu, hr, ⟨v, image, rfl, hi, ?_⟩, hst⟩
            simpa using h.symm
          · rw [if_neg hst] at h
            exact absurd h (by simp)

/-! ## msEmbedScalebar -/

theorem not_mem_of_indexOf_ge {α : Type} [BEq α] [LawfulBEq α] (a : α) (l : List α)
    (h : ¬ List.indexOf a l < l.length) : a ∉ l := by
  induction l with
  | nil => simp
  | cons b l ih =>
    rw [List.indexOf_cons] at h
    by_cases hb : (b == a) = true
    · simp [hb] at h
    · have hb2 : (b == a) = false := by simpa using hb
      simp only [hb2, cond_false, List.length_cons, Nat.add_lt_add_iff_right] at h
      have hne : ¬ a = b := fun e => hb (by simp [e])
      simp only [List.mem_cons, not_or]
      exact ⟨hne, ih h⟩

theorem scalebarSymbols_evicted (symbols : List (Option String))
    (h : scalebarSymbols symbols ≤ 1) :
    scalebarSymbols
      (if msGetSymbolIndex symbols "scalebar" ≠ -1 then
        msRemoveSymbol symbols (msGetSymbolIndex symbols "scalebar")
      else symbols) = 0 := by
  unfold scalebarSymbols at h ⊢
  unfold msGetSymbolIndex msRemoveSymbol
  by_cases hm : List.indexOf (some "scalebar") symbols < symbols.length
  · rw [if_pos hm, if_pos (by omega)]
    simp only [Int.toNat_ofNat, List.eraseIdx_indexOf_eq_erase, List.count_erase_self]
    omega
  · rw [if_neg hm]
    simp only [ne_eq, not_true_eq_false, if_false]
    exact List.count_eq_zero.mpr (not_mem_of_indexOf_ge _ _ hm)

theorem msEmbedScalebar_symbols {Format Image : Type} (E : EmbedCalls Format Image)
    (map : EmbedMap Format) (h : scalebarSymbols map.symbols ≤ 1) :
    scalebarSymbols (msEmbedScalebar E map).2.symbols ≤ 1 := by
  have h0 := scalebarSymbols_evicted map.symbols h
  have happ : ∀ x : Option String,
      scalebarSymbols
        ((if msGetSymbolIndex map.symbols "scalebar" ≠ -1 then
          msRemoveSymbol map.symbols (msGetSymbolIndex map.symbols "scalebar")
        else map.symbols) ++ [x]) ≤ 1 := by
    intro x
    unfold scalebarSymbols at h0 ⊢
    rw [List.count_append, h0, Nat.zero_add]
    exact List.count_le_length _ _
  unfold msEmbedScalebar
  cases hg : E.growOk with
  | false =>
    simp only [Bool.not_false, if_true]
    omega
  | true =>
    simp only [Bool.not_true, Bool.false_eq_true, if_false]
    cases E.drawScalebar _ with
    | none => exact happ none
    | some img => exact happ (some "scalebar")

theorem embedSequence_symbols {Format Image : Type} (calls : List (EmbedCalls Format Image)) :
    ∀ map : EmbedMap Format, scalebarSymbols map.symbols ≤ 1 →
      scalebarSymbols (embedSequence calls map).symbols ≤ 1 := by
  induction calls with
  | nil => intro map h; exact h
  | cons E rest ih =>
    intro map h
    exact ih _ (msEmbedScalebar_symbols E map h)

/-- C14: after any sequence of calls of `msEmbedScalebar` on a map whose symbol
set holds at most one symbol named "scalebar", the symbol set holds at most
one symbol named "scalebar": each call takes the symbol of that name out of
the set before it appends the new one, so that none of the symbols kept from
before the call has that name. -/
theorem C14_at_most_one_scalebar {Format Image : Type} (calls : List (EmbedCalls Format Image))
    (map : EmbedMap Format) (h : scalebarSymbols map.symbols ≤ 1) :
    scalebarSymbols (embedSequence calls map).symbols ≤ 1
    ∧ (∀ E : EmbedCalls Format Image,
        scalebarSymbols (msEmbedScalebar E map).2.symbols ≤ 1
        ∧ scalebarSymbols
            (if msGetSymbolIndex map.symbols "scalebar" ≠ -1 then
              msRemoveSymbol map.symbols (msGetSymbolIndex map.symbols "scalebar")
            else map.symbols) = 0) :=
  ⟨embedSequence_symbols calls map h,
    fun E => ⟨msEmbedScalebar_symbols E map h, scalebarSymbols_evicted map.symbols h⟩⟩

/-- Witness for C14: two successful calls on a symbol set with the names
(none), "scalebar", "circle" leave (none), "circle", "scalebar". -/
theorem C14_at_most_one_scalebar_witness :
    (embedSequence
        [(⟨true, fun _ => false, fun _ => false, false, fun n => n, fun _ => some (),
            fun _ => 0⟩ : EmbedCalls String Unit),
          ⟨true, fun _ => false, fun _ => false, false, fun n => n, fun _ => some (), fun _ => 0⟩]
        ⟨[none, some "scalebar", some "circle"], "png", "png"⟩).symbols
      = [none, some "circle", some "scalebar"]
    ∧ scalebarSymbols (embedSequence
        [(⟨true, fun _ => false, fun _ => false, false, fun n => n, fun _ => some (),
            fun _ => 0⟩ : EmbedCalls String Unit),
          ⟨true, fun _ => false, fun _ => false, false, fun n => n, fun _ => some (), fun _ => 0⟩]
        ⟨[none, some "scalebar", some "circle"], "png", "png"⟩).symbols ≤ 1 :=
  ⟨by decide, (C14_at_most_one_scalebar _ _ (by decide)).1⟩

/-! ## Table rounding -/

theorem MS_NINT_one {K : Type} [LinearOrderedField K] [FloorRing K] : MS_NINT (1 : K) = 1 := by
  have := MS_NINT_intCast (K := K) 1 (by norm_num)
  simpa using this

theorem MS_NINT_ten {K : Type} [LinearOrderedField K] [FloorRing K] : MS_NINT (10 : K) = 10 := by
  have := MS_NINT_intCast (K := K) 10 (by norm_num)
  simpa using this

theorem MS_NINT_abs_sub_le {K : Type} [LinearOrderedField K] [FloorRing K] {x : K}
    (hx : 0 ≤ x) : |(MS_NINT x : K) - x| ≤ 1 / 2 := by
  unfold MS_NINT
  rw [if_pos hx, abs_le]
  have h1 := Int.floor_le (x + 1 / 2)
  have h2 := Int.lt_floor_add_one (x + 1 / 2)
  constructor <;> linarith

theorem MS_NINT_mul_div_abs_le {K : Type} [LinearOrderedField K] [FloorRing K] {d s : K}
    (hd : 0 ≤ d) (hs : 0 < s) : |(MS_NINT (d * s) : K) / s - d| ≤ 1 / s / 2 := by
  have h := MS_NINT_abs_sub_le (mul_nonneg hd hs.le)
  rw [abs_le] at h ⊢
  have e : (MS_NINT (d * s) : K) / s - d = ((MS_NINT (d * s) : K) - d * s) / s := by
    field_simp
    ring
  rw [e]
  constructor
  · rw [le_div_iff₀ hs]
    have : -(1 / s / 2) * s = -(1 / 2) := by field_simp
    linarith [h.1]
  · rw [div_le_iff₀ hs]
    have : 1 / s / 2 * s = 1 / 2 := by field_simp
    linarith [h.2]

theorem MS_NINT_div_mul_abs_le {K : Type} [LinearOrderedField K] [FloorRing K] {d g : K}
    (hd : 0 ≤ d) (hg : 0 < g) : |(MS_NINT (d / g) : K) * g - d| ≤ g / 2 := by
  have h := MS_NINT_abs_sub_le (div_nonneg hd hg.le)
  rw [abs_le] at h ⊢
  have e : d / g * g = d := by field_simp
  constructor
  · nlinarith [h.1]
  · nlinarith [h.2]

theorem roundInterval_nonneg {K : Type} [LinearOrderedField K] [FloorRing K] {d : K}
    (hd : 0 ≤ d) (h : d < 100000000) : 0 ≤ roundInterval d := by
  unfold roundInterval
  by_cases h1 : d < 1 / 1000
  · rw [if_pos h1]
    exact div_nonneg (Int.cast_nonneg.mpr (MS_NINT_nonneg (mul_nonneg hd (by norm_num)))) (by norm_num)
  rw [if_neg h1]
  by_cases h2 : d < 1 / 100
  · rw [if_pos h2]
    exact div_nonneg (Int.cast_nonneg.mpr (MS_NINT_nonneg (mul_nonneg hd (by norm_num)))) (by norm_num)
  rw [if_neg h2]
  by_cases h3 : d < 1 / 10
  · rw [if_pos h3]
    exact div_nonneg (Int.cast_nonneg.mpr (MS_NINT_nonneg (mul_nonneg hd (by norm_num)))) (by norm_num)
  rw [if_neg h3]
  by_cases h4 : d < 1
  · rw [if_pos h4]
    exact div_nonneg (Int.cast_nonneg.mpr (MS_NINT_nonneg (mul_nonneg hd (by norm_num)))) (by norm_num)
  rw [if_neg h4]
  by_cases h5 : d < 100
  · rw [if_pos h5]
    exact Int.cast_nonneg.mpr (MS_NINT_nonneg hd)
  rw [if_neg h5]
  by_cases h6 : d < 1000
  · rw [if_pos h6]
    exact Int.cast_nonneg.mpr (mul_nonneg (MS_NINT_nonneg (div_nonneg hd (by norm_num))) (by norm_num))
  rw [if_neg h6]
  by_cases h7 : d < 10000
  · rw [if_pos h7]
    exact Int.cast_nonneg.mpr (mul_nonneg (MS_NINT_nonneg (div_nonneg hd (by norm_num))) (by norm_num))
  rw [if_neg h7]
  by_cases h8 : d < 100000
  · rw [if_pos h8]
    exact Int.cast_nonneg.mpr (mul_nonneg (MS_NINT_nonneg (div_nonneg hd (by norm_num))) (by norm_num))
  rw [if_neg h8]
  by_cases h9 : d < 1000000
  · rw [if_pos h9]
    exact Int.cast_nonneg.mpr (mul_nonneg (MS_NINT_nonneg (div_nonneg hd (by norm_num))) (by norm_num))
  rw [if_neg h9]
  by_cases h10 : d < 10000000
  · rw [if_pos h10]
    exact Int.cast_nonneg.mpr (mul_nonneg (MS_NINT_nonneg (div_nonneg hd (by norm_num))) (by norm_num))
  rw [if_neg h10]
  by_cases h11 : d < 100000000
  · rw [if_pos h11]
    exact Int.cast_nonneg.mpr (mul_nonneg (MS_NINT_nonneg (div_nonneg hd (by norm_num))) (by norm_num))
  exact absurd h h11

/-- C15: for every d >= 0, `roundInterval` returns the sentinel -1 exactly when
d >= 1e8; for 0 <= d < 1e8 the result is non-negative. -/
theorem C15_roundInterval_sentinel {K : Type} [LinearOrderedField K] [FloorRing K] (d : K)
    (hd : 0 ≤ d) :
    (roundInterval d = -1 ↔ 100000000 ≤ d) ∧ (d < 100000000 → 0 ≤ roundInterval d) := by
  refine ⟨⟨?_, ?_⟩, roundInterval_nonneg hd⟩
  · intro h
    by_contra hlt
    have := roundInterval_nonneg hd (not_le.mp hlt)
    rw [h] at this
    linarith
  · intro h
    unfold roundInterval
    rw [if_neg (by linarith), if_neg (by linarith), if_neg (by linarith), if_neg (by linarith),
      if_neg (by linarith), if_neg (by linarith), if_neg (by linarith), if_neg (by linarith),
      if_neg (by linarith), if_neg (by linarith), if_neg (by linarith)]

/-- Witness for C15: 1e8 gives the sentinel, 5 gives a non-negative result. -/
theorem C15_roundInterval_sentinel_witness :
    (roundInterval (100000000 : ℚ) = -1 ↔ (100000000 : ℚ) ≤ 100000000)
    ∧ ((5 : ℚ) < 100000000 → 0 ≤ roundInterval (5 : ℚ))
    ∧ roundInterval (100000000 : ℚ) = -1 :=
  have h := C15_roundInterval_sentinel (100000000 : ℚ) (by norm_num)
  ⟨h.1, (C15_roundInterval_sentinel (5 : ℚ) (by norm_num)).2, h.1.mpr le_rfl⟩

/-- C19: for every d with 0 <= d < 1e8, `roundInterval` returns the multiple of
the granularity g of the breakpoint ladder nearest to d (g = 0.0001 for
d < 0.001, 0.001 for d < 0.01, 0.01 for d < 0.1, 0.1 for d < 1, 1 for d < 100,
10 for d < 1000, and so on up to 1e6 for d < 1e8): the result is an integer
multiple of g and |roundInterval(d) - d| <= g / 2. -/
theorem C19_roundInterval_nearest {K : Type} [LinearOrderedField K] [FloorRing K] (d : K)
    (hd : 0 ≤ d) (h : d < 100000000) :
    (∃ n : Int, roundInterval d = (n : K) * granularity d)
    ∧ |roundInterval d - d| ≤ granularity d / 2 := by
  unfold roundInterval granularity
  by_cases h1 : d < 1 / 1000
  · simp only [if_pos h1]
    exact ⟨⟨MS_NINT (d * 10000), by ring⟩, MS_NINT_mul_div_abs_le hd (by norm_num)⟩
  simp only [if_neg h1]
  by_cases h2 : d < 1 / 100
  · simp only [if_pos h2]
    exact ⟨⟨MS_NINT (d * 1000), by ring⟩, MS_NINT_mul_div_abs_le hd (by norm_num)⟩
  simp only [if_neg h2]
  by_cases h3 : d < 1 / 10
  · simp only [if_pos h3]
    exact ⟨⟨MS_NINT (d * 100), by ring⟩, MS_NINT_mul_div_abs_le hd (by norm_num)⟩
  simp only [if_neg h3]
  by_cases h4 : d < 1
  · simp only [if_pos h4]
    exact ⟨⟨MS_NINT (d * 10), by ring⟩, MS_NINT_mul_div_abs_le hd (by norm_num)⟩
  simp only [if_neg h4]
  by_cases h5 : d < 100
  · simp only [if_pos h5]
    exact ⟨⟨MS_NINT d, by ring⟩, MS_NINT_abs_sub_le hd⟩
  simp only [if_neg h5]
  by_cases h6 : d < 1000
  · simp only [if_pos h6]
    refine ⟨⟨MS_NINT (d / 10), by push_cast; ring⟩, ?_⟩
    have := MS_NINT_div_mul_abs_le (g := (10 : K)) hd (by norm_num)
    push_cast
    exact this
  simp only [if_neg h6]
  by_cases h7 : d < 10000
  · simp only [if_pos h7]
    refine ⟨⟨MS_NINT (d / 100), by push_cast; ring⟩, ?_⟩
    have := MS_NINT_div_mul_abs_le (g := (100 : K)) hd (by norm_num)
    push_cast
    exact this
  simp only [if_neg h7]
  by_cases h8 : d < 100000
  · simp only [if_pos h8]
    refine ⟨⟨MS_NINT (d / 1000), by push_cast; ring⟩, ?_⟩
    have := MS_NINT_div_mul_abs_le (g := (1000 : K)) hd (by norm_num)
    push_cast
    exact this
  simp only [if_neg h8]
  by_cases h9 : d < 1000000
  · simp only [if_pos h9]
    refine ⟨⟨MS_NINT (d / 10000), by push_cast; ring⟩, ?_⟩
    have := MS_NINT_div_mul_abs_le (g := (10000 : K)) hd (by norm_num)
    push_cast
    exact this
  simp only [if_neg h9]
  by_cases h10 : d < 10000000
  · simp only [if_pos h10]
    refine ⟨⟨MS_NINT (d / 100000), by push_cast; ring⟩, ?_⟩
    have := MS_NINT_div_mul_abs_le (g := (100000 : K)) hd (by norm_num)
    push_cast
    exact this
  simp only [if_neg h10]
  simp only [if_pos h]
  refine ⟨⟨MS_NINT (d / 1000000), by push_cast; ring⟩, ?_⟩
  have := MS_NINT_div_mul_abs_le (g := (1000000 : K)) hd (by norm_num)
  push_cast
  exact this

/-- Witness for C19: d = 1234 lies on the rung with granularity 100 and is
rounded to 1200 = 12 * 100, at distance 34 <= 50. -/
theorem C19_roundInterval_nearest_witness :
    roundInterval (1234 : ℚ) = 1200
    ∧ granularity (1234 : ℚ) = 100
    ∧ (∃ n : Int, roundInterval (1234 : ℚ) = (n : ℚ) * granularity (1234 : ℚ))
    ∧ |roundInterval (1234 : ℚ) - 1234| ≤ granularity (1234 : ℚ) / 2 := by
  have h := C19_roundInterval_nearest (1234 : ℚ) (by norm_num) (by norm_num)
  have hn : MS_NINT (1234 / 100 : ℚ) = 12 := by
    unfold MS_NINT
    rw [if_pos (by norm_num), Int.floor_eq_iff]
    constructor <;> norm_num
  refine ⟨?_, ?_, h.1, h.2⟩
  · unfold roundInterval
    rw [if_neg (by norm_num), if_neg (by norm_num), if_neg (by norm_num), if_neg (by norm_num),
      if_neg (by norm_num), if_neg (by norm_num), if_pos (by norm_num), hn]
    norm_num
  · unfold granularity
    rw [if_neg (by norm_num), if_neg (by norm_num), if_neg (by norm_num), if_neg (by norm_num),
      if_neg (by norm_num), if_neg (by norm_num), if_pos (by norm_num)]

theorem roundInterval2_zpow {K : Type} [LinearOrderedField K] [FloorRing K] (k : Int) :
    roundInterval2 ((10 : K) ^ k) = (10 : K) ^ k := by
  have h := roundInterval2_scaled (K := K) k 1 (by norm_num) (by norm_num)
  rw [one_mul] at h
  rw [h]
  simp [snapRatio]
  intro h2
  norm_num at h2

/-- C16: table rounding and log-ratio rounding agree on the powers of ten from
1e-4 to 1e7: for every integer k with -4 <= k <= 7,
roundInterval(10^k) = roundInterval2(10^k) = 10^k; in particular both return
1000 for the input 1000. -/
theorem C16_rounders_agree_on_powers {K : Type} [LinearOrderedField K] [FloorRing K] (k : Int)
    (h1 : -4 ≤ k) (h2 : k ≤ 7) :
    roundInterval ((10 : K) ^ k) = (10 : K) ^ k
    ∧ roundInterval2 ((10 : K) ^ k) = (10 : K) ^ k
    ∧ roundInterval (1000 : K) = 1000
    ∧ roundInterval2 (1000 : K) = 1000 := by
  have hk : ∀ j : Int, -4 ≤ j → j ≤ 7 → roundInterval ((10 : K) ^ j) = (10 : K) ^ j := by
    intro j hj1 hj2
    have h1n := MS_NINT_one (K := K)
    have h10n := MS_NINT_ten (K := K)
    interval_cases j <;> unfold roundInterval <;> norm_num [h1n, h10n]
  have h3 : ((10 : K) ^ (3 : Int)) = 1000 := by norm_num
  refine ⟨hk k h1 h2, roundInterval2_zpow k, ?_, ?_⟩
  · rw [← h3]
    exact hk 3 (by norm_num) (by norm_num)
  · rw [← h3]
    exact roundInterval2_zpow 3

/-- Witness for C16: k = 3, the input 1000. -/
theorem C16_rounders_agree_on_powers_witness :
    roundInterval ((10 : ℚ) ^ (3 : Int)) = (10 : ℚ) ^ (3 : Int)
    ∧ roundInterval2 ((10 : ℚ) ^ (3 : Int)) = (10 : ℚ) ^ (3 : Int)
    ∧ roundInterval (1000 : ℚ) = 1000
    ∧ roundInterval2 (1000 : ℚ) = 1000 :=
  C16_rounders_agree_on_powers (3 : Int) (by norm_num) (by norm_num)

/-! ## Pix2Georef -/

/-- C17: for nPixMax > nPixMin and dfGeoMax > dfGeoMin, `Pix2Georef` with
bULisYOrig false returns
dfGeoMin + (nPixPos - nPixMin) * (dfGeoMax - dfGeoMin) / (nPixMax - nPixMin),
mapping nPixMin to dfGeoMin and nPixMax to dfGeoMax; with bULisYOrig true it
returns the value of the unflipped map at nPixMin + nPixMax - nPixPos, mapping
nPixMax to dfGeoMin and nPixMin to dfGeoMax; when the geo width or the pixel
width is not positive it returns 0. -/
theorem C17_Pix2Georef_affine {K : Type} [LinearOrderedField K]
    (nPixPos nPixMin nPixMax : Int) (dfGeoMin dfGeoMax : K) (bULisYOrig : Int) :
    (nPixMin < nPixMax → dfGeoMin < dfGeoMax →
      Pix2Georef nPixPos nPixMin nPixMax dfGeoMin dfGeoMax 0
          = dfGeoMin + ((nPixPos : K) - (nPixMin : K)) * (dfGeoMax - dfGeoMin)
              / ((nPixMax : K) - (nPixMin : K))
      ∧ Pix2Georef nPixMin nPixMin nPixMax dfGeoMin dfGeoMax 0 = dfGeoMin
      ∧ Pix2Georef nPixMax nPixMin nPixMax dfGeoMin dfGeoMax 0 = dfGeoMax
      ∧ (bULisYOrig ≠ 0 →
          Pix2Georef nPixPos nPixMin nPixMax dfGeoMin dfGeoMax bULisYOrig
              = Pix2Georef (nPixMin + nPixMax - nPixPos) nPixMin nPixMax dfGeoMin dfGeoMax 0
          ∧ Pix2Georef nPixMax nPixMin nPixMax dfGeoMin dfGeoMax bULisYOrig = dfGeoMin
          ∧ Pix2Georef nPixMin nPixMin nPixMax dfGeoMin dfGeoMax bULisYOrig = dfGeoMax))
    ∧ (¬ (dfGeoMin < dfGeoMax ∧ nPixMin < nPixMax) →
        Pix2Georef nPixPos nPixMin nPixMax dfGeoMin dfGeoMax bULisYOrig = 0) := by
  constructor
  · intro hp hg
    have hc : 0 < dfGeoMax - dfGeoMin ∧ 0 < nPixMax - nPixMin := ⟨sub_pos.mpr hg, sub_pos.mpr hp⟩
    have hw : ((nPixMax : K) - (nPixMin : K)) ≠ 0 := by
      have : (nPixMin : K) < (nPixMax : K) := by exact_mod_cast hp
      exact (sub_pos.mpr this).ne.symm
    refine ⟨?_, ?_, ?_, ?_⟩
    · simp only [Pix2Georef, hc, and_self, if_true]
      push_cast
      ring
    · simp only [Pix2Georef, hc, and_self, if_true]
      simp
    · simp only [Pix2Georef, hc, and_self, if_true]
      push_cast
      field_simp
    · intro hb
      refine ⟨?_, ?_, ?_⟩
      · simp only [Pix2Georef, hc, and_self, if_true, if_neg hb]
        congr 3
        ring
      · simp only [Pix2Georef, hc, and_self, if_true, if_neg hb]
        simp
      · simp only [Pix2Georef, hc, and_self, if_true, if_neg hb]
        push_cast
        field_simp
  · intro h
    have hc : ¬ (0 < dfGeoMax - dfGeoMin ∧ 0 < nPixMax - nPixMin) := by
      rw [sub_pos, sub_pos]
      exact h
    simp only [Pix2Georef, hc, if_false]

/-! ## GetDeltaExtentsUsingScale -/

theorem GetDeltaExtentsUsingScale_supported {K : Type} [LinearOrderedField K] (B : Build K)
    (scale : K) (units : Int) (centerLat : K) (width : Int) (resolution : K)
    (hu : supportedUnit units = true) (hs : 0 < scale) (hw : 0 < width) :
    GetDeltaExtentsUsingScale B scale units centerLat width resolution
      = ((width - 1 : Int) : K) / (resolution * msInchesPerUnit B units centerLat) * scale := by
  unfold GetDeltaExtentsUsingScale
  rw [if_neg (by
    rintro (h | h)
    · exact absurd hs (not_lt.mpr h)
    · exact absurd hw (not_lt.mpr h)), if_pos hu]

/-! ## The range of log-ratio rounding -/

theorem roundHalfEven_of_near {K : Type} [LinearOrderedField K] [FloorRing K] {y : K} (n : Int)
    (h1 : (n : K) - 1 / 2 < y) (h2 : y < (n : K) + 1 / 2) : roundHalfEven y = n := by
  unfold roundHalfEven
  by_cases hy : (n : K) ≤ y
  · have hf : ⌊y⌋ = n := Int.floor_eq_iff.mpr ⟨hy, by linarith⟩
    rw [hf, if_pos (by linarith)]
  · have hy2 : y < (n : K) := not_le.mp hy
    have hf : ⌊y⌋ = n - 1 := by
      rw [Int.floor_eq_iff]
      push_cast
      constructor <;> linarith
    rw [hf]
    push_cast
    rw [if_neg (by linarith), if_pos (by linarith)]
    ring

theorem roundHalfEven_between {K : Type} [LinearOrderedField K] [FloorRing K] {y : K} (a b : Int)
    (h1 : (a : K) ≤ y) (h2 : y ≤ (b : K)) : a ≤ roundHalfEven y ∧ roundHalfEven y ≤ b := by
  have hfa : a ≤ ⌊y⌋ := Int.le_floor.mpr h1
  have hfb : ⌊y⌋ ≤ b := Int.cast_le.mp (le_trans (Int.floor_le y) h2)
  have hup : 0 < y - ⌊y⌋ → ⌊y⌋ + 1 ≤ b := by
    intro hpos
    have hlt : (⌊y⌋ : K) < (b : K) := by linarith
    have : ⌊y⌋ < b := Int.cast_lt.mp hlt
    omega
  unfold roundHalfEven
  split_ifs with c1 c2 c3
  · exact ⟨hfa, hfb⟩
  · exact ⟨by omega, hup (by linarith)⟩
  · exact ⟨hfa, hfb⟩
  · have : (1 : K) / 2 ≤ y - ⌊y⌋ := not_lt.mp c1
    exact ⟨by omega, hup (by linarith)⟩

theorem log2_eq {K : Type} [LinearOrderedField K] [FloorRing K] {x : K} (e : Int)
    (h1 : (2 : K) ^ e ≤ x) (h2 : x < (2 : K) ^ (e + 1)) : Int.log 2 x = e := by
  have hx : 0 < x := lt_of_lt_of_le (zpow_pos (by norm_num) _) h1
  have hb : 1 < (2 : ℕ) := by norm_num
  have a1 := Int.zpow_le_iff_le_log hb hx (x := e)
  have a2 := Int.lt_zpow_iff_log_lt hb hx (x := e + 1)
  simp only [Nat.cast_ofNat] at a1 a2
  have b1 := a1.mp h1
  have b2 := a2.mp h2
  omega

theorem roundDouble_eq {K : Type} [LinearOrderedField K] [FloorRing K] {x : K} (e n : Int)
    (h1 : (2 : K) ^ e ≤ |x|) (h2 : |x| < (2 : K) ^ (e + 1))
    (h3 : (n : K) - 1 / 2 < x / (2 : K) ^ (e - 52))
    (h4 : x / (2 : K) ^ (e - 52) < (n : K) + 1 / 2) :
    roundDouble x = (n : K) * (2 : K) ^ (e - 52) := by
  have hx : x ≠ 0 := by
    intro h
    rw [h, abs_zero] at h1
    exact absurd h1 (not_le.mpr (zpow_pos (by norm_num) _))
  unfold roundDouble
  rw [if_neg hx, log2_eq e h1 h2, roundHalfEven_of_near n h3 h4]

theorem roundDouble_between {K : Type} [LinearOrderedField K] [FloorRing K] {x : K}
    (e a b : Int) (h1 : (2 : K) ^ e ≤ |x|) (h2 : |x| < (2 : K) ^ (e + 1))
    (h3 : (a : K) * (2 : K) ^ (e - 52) ≤ x) (h4 : x ≤ (b : K) * (2 : K) ^ (e - 52)) :
    (a : K) * (2 : K) ^ (e - 52) ≤ roundDouble x
    ∧ roundDouble x ≤ (b : K) * (2 : K) ^ (e - 52) := by
  have hx : x ≠ 0 := by
    intro h
    rw [h, abs_zero] at h1
    exact absurd h1 (not_le.mpr (zpow_pos (by norm_num) _))
  have hu : (0 : K) < (2 : K) ^ (e - 52) := zpow_pos (by norm_num) _
  unfold roundDouble
  rw [if_neg hx, log2_eq e h1 h2]
  have hb := roundHalfEven_between (y := x / (2 : K) ^ (e - 52)) a b
    (by rw [le_div_iff₀ hu]; exact h3) (by rw [div_le_iff₀ hu]; exact h4)
  constructor
  · exact mul_le_mul_of_nonneg_right (by exact_mod_cast hb.1) hu.le
  · exact mul_le_mul_of_nonneg_right (by exact_mod_cast hb.2) hu.le

theorem roundHalfEven_abs_sub_le {K : Type} [LinearOrderedField K] [FloorRing K] (y : K) :
    |(roundHalfEven y : K) - y| ≤ 1 / 2 := by
  have h1 := Int.floor_le y
  have h2 := Int.lt_floor_add_one y
  unfold roundHalfEven
  rw [abs_le]
  split_ifs with c1 c2 c3
  · constructor <;> linarith
  · push_cast
    constructor <;> linarith
  · have : (1 : K) / 2 ≤ y - ⌊y⌋ := not_lt.mp c1
    constructor <;> linarith
  · have : (1 : K) / 2 ≤ y - ⌊y⌋ := not_lt.mp c1
    push_cast
    constructor <;> linarith

theorem roundDouble_abs_sub_le {K : Type} [LinearOrderedField K] [FloorRing K] (x : K) :
    |roundDouble x - x| ≤ |x| * (2 : K) ^ (-53 : Int) := by
  unfold roundDouble
  by_cases hx : x = 0
  · simp [hx]
  · rw [if_neg hx]
    have hpos : 0 < |x| := abs_pos.mpr hx
    have hlog : (2 : K) ^ (Int.log 2 |x|) ≤ |x| := by
      have h := Int.zpow_log_le_self (b := 2) (by norm_num) hpos
      simpa using h
    have hu : (0 : K) < (2 : K) ^ (Int.log 2 |x| - 52) := zpow_pos (by norm_num) _
    have hr := roundHalfEven_abs_sub_le (x / (2 : K) ^ (Int.log 2 |x| - 52))
    have e1 : (roundHalfEven (x / (2 : K) ^ (Int.log 2 |x| - 52)) : K)
          * (2 : K) ^ (Int.log 2 |x| - 52) - x
        = ((roundHalfEven (x / (2 : K) ^ (Int.log 2 |x| - 52)) : K)
            - x / (2 : K) ^ (Int.log 2 |x| - 52)) * (2 : K) ^ (Int.log 2 |x| - 52) := by
      field_simp
    have e2 : (2 : K) ^ (Int.log 2 |x| - 52) = (2 : K) ^ (Int.log 2 |x|) * (2 : K) ^ (-52 : Int) := by
      rw [sub_eq_add_neg, zpow_add₀ (by norm_num : (2 : K) ≠ 0)]
    have e3 : (2 : K) ^ (-53 : Int) = (2 : K) ^ (-52 : Int) / 2 := by norm_num
    rw [e1, abs_mul, abs_of_pos hu, e2, e3]
    have h52 : (0 : K) < (2 : K) ^ (-52 : Int) := zpow_pos (by norm_num) _
    have hl0 : (0 : K) < (2 : K) ^ (Int.log 2 |x|) := zpow_pos (by norm_num) _
    calc |(roundHalfEven (x / ((2 : K) ^ (Int.log 2 |x|) * (2 : K) ^ (-52 : Int))) : K)
            - x / ((2 : K) ^ (Int.log 2 |x|) * (2 : K) ^ (-52 : Int))|
          * ((2 : K) ^ (Int.log 2 |x|) * (2 : K) ^ (-52 : Int))
        ≤ 1 / 2 * ((2 : K) ^ (Int.log 2 |x|) * (2 : K) ^ (-52 : Int)) := by
          apply mul_le_mul_of_nonneg_right _ (mul_pos hl0 h52).le
          rw [← e2]
          exact hr
      _ = (2 : K) ^ (Int.log 2 |x|) * ((2 : K) ^ (-52 : Int) / 2) := by ring
      _ ≤ |x| * ((2 : K) ^ (-52 : Int) / 2) :=
          mul_le_mul_of_nonneg_right hlog (by positivity)

theorem roundDouble_pos {K : Type} [LinearOrderedField K] [FloorRing K] {x : K} (hx : 0 < x) :
    0 < roundDouble x := by
  have h := roundDouble_abs_sub_le x
  rw [abs_of_pos hx, abs_le] at h
  have h53 : (2 : K) ^ (-53 : Int) < 1 := by norm_num
  nlinarith [h.1]

theorem round_trip_abs_sub_le {K : Type} [LinearOrderedField K] [FloorRing K] {md s : K}
    (hmd : 0 < md) (hs : 0 < s) :
    |roundDouble (roundDouble (md * s) / md) - s|
      ≤ s * ((2 : K) ^ (-52 : Int) + (2 : K) ^ (-106 : Int)) := by
  have ha := roundDouble_abs_sub_le (md * s)
  have hb := roundDouble_abs_sub_le (roundDouble (md * s) / md)
  have hms : 0 < md * s := mul_pos hmd hs
  rw [abs_of_pos hms] at ha
  have hq : |roundDouble (md * s) / md - s| ≤ s * (2 : K) ^ (-53 : Int) := by
    have e : roundDouble (md * s) / md - s = (roundDouble (md * s) - md * s) / md := by
      field_simp
    rw [e, abs_div, abs_of_pos hmd, div_le_iff₀ hmd]
    calc |roundDouble (md * s) - md * s| ≤ md * s * (2 : K) ^ (-53 : Int) := ha
      _ = s * (2 : K) ^ (-53 : Int) * md := by ring
  have hqa : |roundDouble (md * s) / md| ≤ s + s * (2 : K) ^ (-53 : Int) := by
    have := abs_sub_abs_le_abs_sub (roundDouble (md * s) / md) s
    rw [abs_of_pos hs] at this
    linarith
  have e52 : (2 : K) ^ (-52 : Int) = 2 * (2 : K) ^ (-53 : Int) := by norm_num
  have e106 : (2 : K) ^ (-106 : Int) = (2 : K) ^ (-53 : Int) * (2 : K) ^ (-53 : Int) := by
    norm_num
  have h53 : (0 : K) < (2 : K) ^ (-53 : Int) := zpow_pos (by norm_num) _
  calc |roundDouble (roundDouble (md * s) / md) - s|
      ≤ |roundDouble (roundDouble (md * s) / md) - roundDouble (md * s) / md|
          + |roundDouble (md * s) / md - s| := abs_sub_le _ _ _
    _ ≤ |roundDouble (md * s) / md| * (2 : K) ^ (-53 : Int) + s * (2 : K) ^ (-53 : Int) :=
        add_le_add hb hq
    _ ≤ (s + s * (2 : K) ^ (-53 : Int)) * (2 : K) ^ (-53 : Int) + s * (2 : K) ^ (-53 : Int) :=
        add_le_add (mul_le_mul_of_nonneg_right hqa h53.le) le_rfl
    _ = s * ((2 : K) ^ (-52 : Int) + (2 : K) ^ (-106 : Int)) := by
        rw [e52, e106]
        ring

/-! ## The round trip of the scale on doubles -/

theorem double_meters : roundDouble (393701 / 10000 : ℚ) = 5540848990298099 / 140737488355328 := by
  rw [roundDouble_eq 5 5540848990298099 (by rw [abs_of_pos (by norm_num)]; norm_num)
    (by rw [abs_of_pos (by norm_num)]; norm_num) (by norm_num) (by norm_num)]
  norm_num

theorem double_res_meters : roundDouble (72 * (5540848990298099 / 140737488355328) : ℚ) = 6233455114085361 / 2199023255552 := by
  rw [roundDouble_eq 11 6233455114085361 (by rw [abs_of_pos (by norm_num)]; norm_num)
    (by rw [abs_of_pos (by norm_num)]; norm_num) (by norm_num) (by norm_num)]
  norm_num

theorem double_md : roundDouble (600 / (6233455114085361 / 2199023255552) : ℚ) = 7626091250924765 / 36028797018963968 := by
  rw [roundDouble_eq (-3) 7626091250924765 (by rw [abs_of_pos (by norm_num)]; norm_num)
    (by rw [abs_of_pos (by norm_num)]; norm_num) (by norm_num) (by norm_num)]
  norm_num

theorem double_delta : roundDouble (7626091250924765 / 36028797018963968 * 65000 : ℚ) = 3781859827500227 / 274877906944 := by
  rw [roundDouble_eq 13 7563719655000454 (by rw [abs_of_pos (by norm_num)]; norm_num)
    (by rw [abs_of_pos (by norm_num)]; norm_num) (by norm_num) (by norm_num)]
  norm_num

theorem double_gd : roundDouble (3781859827500227 / 274877906944 - 0 : ℚ) = 3781859827500227 / 274877906944 := by
  rw [roundDouble_eq 13 7563719655000454 (by rw [abs_of_pos (by norm_num)]; norm_num)
    (by rw [abs_of_pos (by norm_num)]; norm_num) (by norm_num) (by norm_num)]
  norm_num

theorem double_scale : roundDouble (3781859827500227 / 274877906944 / (7626091250924765 / 36028797018963968) : ℚ) = 8933531975680001 / 137438953472 := by
  rw [roundDouble_eq 15 8933531975680001 (by rw [abs_of_pos (by norm_num)]; norm_num)
    (by rw [abs_of_pos (by norm_num)]; norm_num) (by norm_num) (by norm_num)]
  norm_num

theorem msInchesPerUnitD_METERS {K : Type} [LinearOrderedField K] [FloorRing K] (B : Build K)
    (lat : K) : msInchesPerUnitD B MS_METERS lat = roundDouble (393701 / 10000) := by
  simp [msInchesPerUnitD, linearUnit, inchesPerUnitD, inchesPerUnit, MS_DD, MS_METERS,
    MS_KILOMETERS, MS_MILES, MS_NAUTICALMILES, MS_INCHES, MS_FEET]

theorem roundDouble_zero {K : Type} [LinearOrderedField K] [FloorRing K] :
    roundDouble (0 : K) = 0 := by
  simp [roundDouble]

theorem GetDeltaExtentsUsingScaleD_example :
    GetDeltaExtentsUsingScaleD plainBuild 65000 MS_METERS 0 601 72
      = 3781859827500227 / 274877906944 := by
  have hu : supportedUnit MS_METERS = true := by decide
  have hw : (((601 - 1 : Int)) : ℚ) = 600 := by norm_num
  unfold GetDeltaExtentsUsingScaleD
  rw [if_neg (by norm_num), if_pos hu]
  simp only [msInchesPerUnitD_METERS, hw]
  rw [double_meters, double_res_meters, double_md, double_delta]

/-- C21, as stated, fails, in two ways.  On doubles the round trip is not
exact: for meters, scale 65000, width 601, resolution 72 and centre latitude 0
the span is 13758.325903837347 (3781859827500227 / 2^38), and on the valid
extent (0, -50, span, 50), whose computed midpoint is 0 and whose computed
width is that span, `msCalculateScale` with height 401 and pixel adjustment 1
stores 65000 + 2^-37, not 65000.  And the height is left open: with height 0
the call fails and stores nothing, in exact arithmetic as well (inches,
scale 1, width 2, resolution 1, extent (0, -1, 1, 1)). -/
theorem C21_round_trip_not_exact :
    (supportedUnit MS_METERS = true
      ∧ GetDeltaExtentsUsingScaleD plainBuild 65000 MS_METERS 0 601 72
          = 3781859827500227 / 274877906944
      ∧ roundDouble (roundDouble ((-50 : ℚ) + 50) / 2) = 0
      ∧ roundDouble ((3781859827500227 / 274877906944 : ℚ) - 0)
          = GetDeltaExtentsUsingScaleD plainBuild 65000 MS_METERS 0 601 72
      ∧ msCalculateScaleD plainBuild ⟨0, -50, 3781859827500227 / 274877906944, 50⟩
          MS_METERS 601 401 1 72 0 = (MS_SUCCESS, 65000 + 1 / 137438953472)
      ∧ (65000 + 1 / 137438953472 : ℚ) ≠ 65000)
    ∧ (supportedUnit MS_INCHES = true
      ∧ GetDeltaExtentsUsingScale plainBuild 1 MS_INCHES 0 2 1 = 1
      ∧ MS_VALID_EXTENT (⟨0, -1, 1, 1⟩ : rectObj ℚ) = true
      ∧ ((-1 : ℚ) + 1) / 2 = 0
      ∧ (1 : ℚ) - 0 = GetDeltaExtentsUsingScale plainBuild 1 MS_INCHES 0 2 1
      ∧ msCalculateScale plainBuild ⟨0, -1, 1, 1⟩ MS_INCHES 2 0 1 1 7 = (MS_FAILURE, 7)
      ∧ MS_FAILURE ≠ MS_SUCCESS) := by
  have hmid : roundDouble (roundDouble ((-50 : ℚ) + 50) / 2) = 0 := by
    norm_num [roundDouble_zero]
  have hd : GetDeltaExtentsUsingScale plainBuild 1 MS_INCHES 0 2 1 = 1 := by
    rw [GetDeltaExtentsUsingScale_supported _ _ _ _ _ _ (by decide) (by norm_num) (by norm_num),
      msInchesPerUnit_INCHES]
    norm_num
  refine ⟨⟨by decide, GetDeltaExtentsUsingScaleD_example, hmid, ?_, ?_, by norm_num⟩,
    ⟨by decide, hd, ?_, by norm_num, ?_, ?_, by decide⟩⟩
  · rw [GetDeltaExtentsUsingScaleD_example, double_gd]
  · have hv : MS_VALID_EXTENT (⟨0, -50, 3781859827500227 / 274877906944, 50⟩ : rectObj ℚ)
        = true := by
      simp [MS_VALID_EXTENT]
    have hu : supportedUnit MS_METERS = true := by decide
    have hw : (((601 - 1 : Int)) : ℚ) = 600 := by norm_num
    unfold msCalculateScaleD
    simp only [hv, Bool.not_true, Bool.false_eq_true, if_false, hu, if_true,
      msInchesPerUnitD_METERS, hw]
    rw [if_neg (by decide), double_meters, double_res_meters, double_md, double_gd, double_scale]
    norm_num
  · simp [MS_VALID_EXTENT]
  · rw [hd]
    norm_num
  · simp [msCalculateScale, MS_VALID_EXTENT]

/-- C21, amended: for every supported unit, scale > 0, width >= 2, positive
height, resolution > 0 and latitude centerLat, `msCalculateScale` with pixel
adjustment 1 inverts `GetDeltaExtentsUsingScale` up to rounding.  In exact
arithmetic the span is positive, and on an extent with maxy > miny, vertical
midpoint centerLat and that horizontal span the call succeeds and stores
exactly scale.  On doubles (overflow and underflow apart), on a valid extent
whose computed midpoint is centerLat and whose computed width is the computed
span, the inches per unit being positive, the call succeeds and stores a value
within scale * (2^-52 + 2^-106) of scale: the two roundings of the product
and of the quotient, the map distance being the same double in both
functions. -/
theorem C21_GetDeltaExtentsUsingScale_inverts (enable : Bool) (extent : rectObj ℝ)
    (units width height : Int) (resolution scale centerLat old : ℝ)
    (hu : supportedUnit units = true) (hs : 0 < scale) (hw : 2 ≤ width) (hh : 0 < height)
    (hr : 0 < resolution) (hy : extent.miny < extent.maxy)
    (hc : (extent.miny + extent.maxy) / 2 = centerLat)
    (hspan : extent.maxx - extent.minx
      = GetDeltaExtentsUsingScale (realBuild enable) scale units centerLat width resolution) :
    0 < GetDeltaExtentsUsingScale (realBuild enable) scale units centerLat width resolution
    ∧ msCalculateScale (realBuild enable) extent units width height 1 resolution old
        = (MS_SUCCESS, scale)
    ∧ ∀ (B : Build ℝ) (e : rectObj ℝ), e.minx < e.maxx → e.miny < e.maxy →
        roundDouble (roundDouble (e.miny + e.maxy) / 2) = centerLat →
        0 < msInchesPerUnitD B units centerLat →
        roundDouble (e.maxx - e.minx)
          = GetDeltaExtentsUsingScaleD B scale units centerLat width resolution →
        (msCalculateScaleD B e units width height 1 resolution old).1 = MS_SUCCESS
        ∧ |(msCalculateScaleD B e units width height 1 resolution old).2 - scale|
            ≤ scale * ((2 : ℝ) ^ (-52 : Int) + (2 : ℝ) ^ (-106 : Int)) := by
  have hw0 : 0 < width := by omega
  have hipu := msInchesPerUnit_realBuild_pos enable hu centerLat
  have hw1 : (0 : ℝ) < ((width - 1 : Int) : ℝ) := by
    have : (0 : Int) < width - 1 := by omega
    exact_mod_cast this
  have hmd : 0 < ((width - 1 : Int) : ℝ)
      / (resolution * msInchesPerUnit (realBuild enable) units centerLat) :=
    div_pos hw1 (mul_pos hr hipu)
  have hd := GetDeltaExtentsUsingScale_supported (realBuild enable) scale units centerLat width
    resolution hu hs hw0
  have hpos : 0 < GetDeltaExtentsUsingScale (realBuild enable) scale units centerLat width
      resolution := by
    rw [hd]
    exact mul_pos hmd hs
  refine ⟨hpos, ?_, ?_⟩
  · have hx : extent.minx < extent.maxx := by
      rw [← hspan] at hpos
      linarith
    rw [msCalculateScale_valid _ _ _ _ _ _ _ _ hx hy hw0 hh, if_pos hu, hc, hspan, hd]
    congr 1
    exact mul_div_cancel_left₀ scale hmd.ne.symm
  · intro B e hex hey hec hipuD hespan
    have hmdD : 0 < roundDouble (((width - 1 : Int) : ℝ)
        / roundDouble (resolution * msInchesPerUnitD B units centerLat)) :=
      roundDouble_pos (div_pos hw1 (roundDouble_pos (mul_pos hr hipuD)))
    have hdD : GetDeltaExtentsUsingScaleD B scale units centerLat width resolution
        = roundDouble (roundDouble (((width - 1 : Int) : ℝ)
            / roundDouble (resolution * msInchesPerUnitD B units centerLat)) * scale) := by
      unfold GetDeltaExtentsUsingScaleD
      rw [if_neg (by
        rintro (h | h)
        · exact absurd hs (not_lt.mpr h)
        · exact absurd hw0 (not_lt.mpr h)), if_pos hu]
    have hv : MS_VALID_EXTENT e = true := by simp [MS_VALID_EXTENT, hex, hey]
    have hwh : (decide (width ≤ 0) || decide (height ≤ 0)) = false := by
      simp [not_le.mpr hw0, not_le.mpr hh]
    have hval : msCalculateScaleD B e units width height 1 resolution old
        = (MS_SUCCESS, roundDouble (roundDouble (roundDouble (((width - 1 : Int) : ℝ)
            / roundDouble (resolution * msInchesPerUnitD B units centerLat)) * scale)
          / roundDouble (((width - 1 : Int) : ℝ)
            / roundDouble (resolution * msInchesPerUnitD B units centerLat)))) := by
      simp only [msCalculateScaleD, hv, hwh, Bool.not_true, Bool.false_eq_true, if_false, hu,
        if_true, hec, hespan, hdD]
    rw [hval]
    exact ⟨rfl, round_trip_abs_sub_le hmdD hs⟩

/-- Witness for C21 (amended): meters, scale 25000, width 601, height 401,
resolution 72, centre latitude 0 and the extent from (0, -50) to
(span, 50). -/
theorem C21_GetDeltaExtentsUsingScale_inverts_witness :
    msCalculateScale (realBuild false)
        ⟨0, -50, GetDeltaExtentsUsingScale (realBuild false) 25000 MS_METERS 0 601 72, 50⟩
        MS_METERS 601 401 1 72 0
      = (MS_SUCCESS, 25000) :=
  (C21_GetDeltaExtentsUsingScale_inverts false
    ⟨0, -50, GetDeltaExtentsUsingScale (realBuild false) 25000 MS_METERS 0 601 72, 50⟩
    MS_METERS 601 401 72 25000 0 0 (by decide) (by norm_num) (by norm_num) (by norm_num)
    (by norm_num) (by norm_num) (by norm_num) (by simp)).2.1

/-! ## Log-ratio rounding on doubles -/

theorem double_pow_m6 : roundDouble ((10 : ℝ) ^ (-6 : Int) : ℝ) = 4722366482869645 / 4722366482869645213696 := by
  rw [roundDouble_eq (-20) 4722366482869645 (by rw [abs_of_pos (by norm_num)]; norm_num)
    (by rw [abs_of_pos (by norm_num)]; norm_num) (by norm_num) (by norm_num)]
  norm_num

theorem double_8em6 : roundDouble (8 / 1000000 : ℝ) = 4722366482869645 / 590295810358705651712 := by
  rw [roundDouble_eq (-17) 4722366482869645 (by rw [abs_of_pos (by norm_num)]; norm_num)
    (by rw [abs_of_pos (by norm_num)]; norm_num) (by norm_num) (by norm_num)]
  norm_num

theorem double_ratio_8em6 : roundDouble (4722366482869645 / 590295810358705651712 / (4722366482869645 / 4722366482869645213696) : ℝ) = 8 := by
  rw [roundDouble_eq 3 4503599627370496 (by rw [abs_of_pos (by norm_num)]; norm_num)
    (by rw [abs_of_pos (by norm_num)]; norm_num) (by norm_num) (by norm_num)]
  norm_num

theorem double_ten_pow_m6 : roundDouble (10 * (4722366482869645 / 4722366482869645213696) : ℝ) = 368934881474191 / 36893488147419103232 := by
  rw [roundDouble_eq (-17) 5902958103587056 (by rw [abs_of_pos (by norm_num)]; norm_num)
    (by rw [abs_of_pos (by norm_num)]; norm_num) (by norm_num) (by norm_num)]
  norm_num

theorem double_pow_m5 : roundDouble ((10 : ℝ) ^ (-5 : Int) : ℝ) = 5902958103587057 / 590295810358705651712 := by
  rw [roundDouble_eq (-17) 5902958103587057 (by rw [abs_of_pos (by norm_num)]; norm_num)
    (by rw [abs_of_pos (by norm_num)]; norm_num) (by norm_num) (by norm_num)]
  norm_num

theorem double_ratio_second : roundDouble (368934881474191 / 36893488147419103232 / (5902958103587057 / 590295810358705651712) : ℝ) = 4503599627370495 / 4503599627370496 := by
  rw [roundDouble_eq (-1) 9007199254740990 (by rw [abs_of_pos (by norm_num)]; norm_num)
    (by rw [abs_of_pos (by norm_num)]; norm_num) (by norm_num) (by norm_num)]
  norm_num

theorem double_one_pow_m5 : roundDouble (1 * (5902958103587057 / 590295810358705651712) : ℝ) = 5902958103587057 / 590295810358705651712 := by
  rw [roundDouble_eq (-17) 5902958103587057 (by rw [abs_of_pos (by norm_num)]; norm_num)
    (by rw [abs_of_pos (by norm_num)]; norm_num) (by norm_num) (by norm_num)]
  norm_num

theorem logb_ten_zpow (k : Int) : Real.logb 10 ((10 : ℝ) ^ k) = k := by
  rw [← Real.rpow_intCast, Real.logb_rpow (by norm_num) (by norm_num)]

theorem logb_ten_lower {q : ℝ} (N : ℕ) (hN : 0 < N) (hq : 0 < q)
    (hB : (1 : ℝ) / 10 < 1 + (N : ℝ) * (q - 1)) : -(1 / (N : ℝ)) < Real.logb 10 q := by
  have hN0 : (0 : ℝ) < (N : ℝ) := by exact_mod_cast hN
  have hpow : (1 : ℝ) / 10 < q ^ N := by
    have h := one_add_mul_le_pow (a := q - 1) (by linarith) N
    have e : 1 + (q - 1) = q := by ring
    rw [e] at h
    linarith
  have hlog := Real.logb_lt_logb (b := 10) (by norm_num) (by norm_num) hpow
  rw [Real.logb_pow] at hlog
  have hten : Real.logb 10 ((1 : ℝ) / 10) = -1 := by
    have h := logb_ten_zpow (-1)
    have e : ((10 : ℝ) ^ (-1 : Int)) = 1 / 10 := by norm_num
    rw [e] at h
    exact_mod_cast h
  rw [hten] at hlog
  rw [neg_lt, lt_div_iff₀ hN0]
  linarith

theorem floor_log10_8em6 :
    ⌊roundDouble (Real.logb 10 (4722366482869645 / 590295810358705651712 : ℝ))⌋ = -6 := by
  have h1 : (-6 : ℝ) ≤ Real.logb 10 (4722366482869645 / 590295810358705651712 : ℝ) := by
    have h := Real.logb_le_logb_of_le (b := 10) (by norm_num)
      (by norm_num : (0 : ℝ) < (10 : ℝ) ^ (-6 : Int))
      (by norm_num : (10 : ℝ) ^ (-6 : Int) ≤ 4722366482869645 / 590295810358705651712)
    rw [logb_ten_zpow] at h
    exact_mod_cast h
  have h2 : Real.logb 10 (4722366482869645 / 590295810358705651712 : ℝ) ≤ -81 / 16 := by
    have h := Real.logb_le_logb_of_le (b := 10) (by norm_num)
      (by norm_num : (0 : ℝ) < (4722366482869645 / 590295810358705651712 : ℝ) ^ 16)
      (by norm_num : (4722366482869645 / 590295810358705651712 : ℝ) ^ 16
        ≤ (10 : ℝ) ^ (-81 : Int))
    rw [logb_ten_zpow, Real.logb_pow] at h
    push_cast at h
    linarith
  have hb := roundDouble_between (x := Real.logb 10
      (4722366482869645 / 590295810358705651712 : ℝ)) 2 (-6755399441055744) (-5699868278390784)
    (by rw [abs_of_neg (by linarith)]; norm_num; linarith)
    (by rw [abs_of_neg (by linarith)]; norm_num; linarith)
    (by norm_num; linarith) (by norm_num; linarith)
  norm_num at hb
  rw [Int.floor_eq_iff]
  constructor
  · push_cast; linarith [hb.1]
  · push_cast; linarith [hb.2]

theorem floor_log10_second :
    ⌊roundDouble (Real.logb 10 (368934881474191 / 36893488147419103232 : ℝ))⌋ = -5 := by
  have hsplit : (368934881474191 / 36893488147419103232 : ℝ)
      = (1152921504606846875 / 1152921504606846976) * (10 : ℝ) ^ (-5 : Int) := by norm_num
  have h1 : Real.logb 10 (368934881474191 / 36893488147419103232 : ℝ) < -5 := by
    have h := Real.logb_lt_logb (b := 10) (by norm_num)
      (by norm_num : (0 : ℝ) < 368934881474191 / 36893488147419103232)
      (by norm_num : (368934881474191 / 36893488147419103232 : ℝ) < (10 : ℝ) ^ (-5 : Int))
    rw [logb_ten_zpow] at h
    exact_mod_cast h
  have h2 : -5 - 1 / (2251799813685248 : ℝ)
      < Real.logb 10 (368934881474191 / 36893488147419103232 : ℝ) := by
    have h := logb_ten_lower (q := (1152921504606846875 / 1152921504606846976 : ℝ))
      2251799813685248 (by norm_num) (by norm_num) (by norm_num)
    rw [hsplit, Real.logb_mul (by norm_num) (by norm_num), logb_ten_zpow]
    push_cast at h ⊢
    linarith
  have hr := roundDouble_eq (x := Real.logb 10 (368934881474191 / 36893488147419103232 : ℝ))
    2 (-5629499534213120)
    (by rw [abs_of_neg (by linarith)]; norm_num; linarith)
    (by rw [abs_of_neg (by linarith)]; norm_num; linarith)
    (by norm_num; linarith) (by norm_num; linarith)
  rw [hr]
  norm_num

/-- C7, as stated, fails on doubles (`log10` and `pow` correctly rounded, which
is what glibc returns at these arguments).  The double 8e-6 has floor(log10) = -6 and
ratio 8, so `roundInterval2` returns 10 * pow(10, -6), which is
9.9999999999999991e-06: one unit in the last place below pow(10, -5), which is
1.0000000000000001e-05.  Its logarithm rounds to -5, its ratio to
pow(10, -5) is below 1.5, and the second application returns pow(10, -5), a
different double. -/
theorem C7_not_idempotent_on_doubles :
    roundDouble (8 / 1000000 : ℝ) = 4722366482869645 / 590295810358705651712
    ∧ (0 : ℝ) < 4722366482869645 / 590295810358705651712
    ∧ roundInterval2D log10Double (4722366482869645 / 590295810358705651712)
        = 368934881474191 / 36893488147419103232
    ∧ roundInterval2D log10Double (368934881474191 / 36893488147419103232)
        = 5902958103587057 / 590295810358705651712
    ∧ roundInterval2D log10Double
          (roundInterval2D log10Double (4722366482869645 / 590295810358705651712))
        ≠ roundInterval2D log10Double (4722366482869645 / 590295810358705651712) := by
  have hs8 : snapRatio (8 : ℝ) = 10 := by
    simp [snapRatio]
    norm_num
  have hs1 : snapRatio (4503599627370495 / 4503599627370496 : ℝ) = 1 := by
    simp [snapRatio]
    norm_num
  have hfirst : roundInterval2D log10Double (4722366482869645 / 590295810358705651712)
      = 368934881474191 / 36893488147419103232 := by
    unfold roundInterval2D powDouble log10Double
    simp only [floor_log10_8em6]
    rw [double_pow_m6, double_ratio_8em6, hs8, double_ten_pow_m6]
  have hsecond : roundInterval2D log10Double (368934881474191 / 36893488147419103232)
      = 5902958103587057 / 590295810358705651712 := by
    unfold roundInterval2D powDouble log10Double
    simp only [floor_log10_second]
    rw [double_pow_m5, double_ratio_second, hs1, double_one_pow_m5]
  refine ⟨double_8em6, by norm_num, hfirst, hsecond, ?_⟩
  rw [hfirst, hsecond]
  norm_num

end MapScale
